import Mathlib

/-!
A shallow embedding of `mem_pool.c`.

The pool allocator of `src/mem_pool.c` is embedded as pure functions over explicit state.

* A pointer into a pool's node heap is the index of the slot it points to (`none` is `NULL`).
  A pointer `some i` with `i` outside the heap stands for any address that is not a heap slot.
* Addresses of host memory (`pool.mem`, `alloc_record.mem`, the address of a manager) are
  natural numbers, `0` being `NULL`.
* `unsigned` values wrap modulo `2 ^ 32`, `size_t` values modulo `2 ^ 64`.
* A function returns `none` where the C program leaves defined behaviour: an access outside
  an array, or handing `realloc` something that is not a heap pointer.
-/

namespace MemPool

/-! ## Constants -/

def MEM_EXPAND_FACTOR : Nat := 2
def MEM_POOL_STORE_INIT_CAPACITY : Nat := 20
def MEM_NODE_HEAP_INIT_CAPACITY : Nat := 40
def MEM_GAP_IX_INIT_CAPACITY : Nat := 40
def MEM_GAP_IX_EXPAND_FACTOR : Nat := 2

/-- The modulus of `unsigned`. -/
def U32 : Nat := 2 ^ 32

/-- The modulus of `size_t`. -/
def U64 : Nat := 2 ^ 64

/-! ## Types -/

/-- The status codes of `mem_pool.h` that `mem_pool.c` uses. -/
inductive alloc_status where
  | ALLOC_OK
  | ALLOC_FAIL
  | ALLOC_NOT_FREED
  | ALLOC_CALLED_AGAIN
  deriving DecidableEq, Repr

/-- The placement policies of `mem_pool.h`. -/
inductive alloc_policy where
  | FIRST_FIT
  | BEST_FIT
  deriving DecidableEq, Repr

/-- The allocation record `alloc_t` of `mem_pool.h`: a size and the address of the memory. -/
structure alloc_t where
  size : Nat
  mem : Nat
  deriving DecidableEq, Repr

/-- The segment node `node_t`. -/
structure node_t where
  alloc_record : alloc_t
  used : Nat
  allocated : Nat
  next : Option Nat
  prev : Option Nat
  deriving DecidableEq, Repr

/-- The gap index entry `gap_t`. -/
structure gap_t where
  size : Nat
  node : Option Nat
  deriving DecidableEq, Repr

/-- The public pool record `pool_t` of `mem_pool.h`. -/
structure pool_t where
  mem : Nat
  policy : alloc_policy
  total_size : Nat
  alloc_size : Nat
  num_allocs : Nat
  num_gaps : Nat
  deriving DecidableEq, Repr

/-- The pool manager `pool_mgr_t`. The lists are the arrays behind `node_heap` and `gap_ix`;
their lengths are the numbers of slots that were really allocated. -/
structure pool_mgr_t where
  pool : pool_t
  node_heap : List node_t
  total_nodes : Nat
  used_nodes : Nat
  gap_ix : List gap_t
  gap_ix_capacity : Nat
  deriving DecidableEq, Repr

/-- The static globals `pool_store`, `pool_store_size`, `pool_store_capacity`. The store is
`none` when the pointer is `NULL`, otherwise the array of manager addresses. -/
structure store_t where
  pool_store : Option (List Nat)
  pool_store_size : Nat
  pool_store_capacity : Nat
  deriving DecidableEq, Repr

/-- What the host gives to one call of `mem_pool_open`: the four `calloc` results (an address,
`0` for `NULL`, or whether the array was obtained) and the number `mgr_slots` of pointers that
fit in `sizeof(pool_mgr_t)` bytes, which depends on the layout in `mem_pool.h`. -/
structure host_t where
  mgr_p : Nat
  mem_p : Nat
  heap_ok : Bool
  gap_ok : Bool
  mgr_slots : Nat
  deriving DecidableEq, Repr

/-- A node as `calloc` leaves it. -/
def zero_node : node_t :=
  { alloc_record := { size := 0, mem := 0 }, used := 0, allocated := 0, next := none, prev := none }

/-- A gap index entry as `calloc` leaves it. -/
def zero_gap : gap_t := { size := 0, node := none }

/-! ## Registry -/

/-- The function `mem_init`; `store_p` is the result of its `calloc` (`0` for `NULL`). -/
def mem_init (store_p : Nat) (g : store_t) : store_t × alloc_status :=
  match g.pool_store with
  | none =>
    ({ pool_store := if store_p = 0 then none
                     else some (List.replicate MEM_POOL_STORE_INIT_CAPACITY 0),
       pool_store_size := 0,
       pool_store_capacity := MEM_POOL_STORE_INIT_CAPACITY }, alloc_status.ALLOC_OK)
  | some _ => (g, alloc_status.ALLOC_CALLED_AGAIN)

/-- The function `mem_free`. -/
def mem_free (g : store_t) : store_t × alloc_status :=
  match g.pool_store with
  | some _ => ({ g with pool_store := none }, alloc_status.ALLOC_OK)
  | none => (g, alloc_status.ALLOC_CALLED_AGAIN)

/-- The function `_mem_resize_pool_store`. The test `(float) size / capacity > 0.75` is
`4 * size > 3 * capacity`, exact while both numbers are below `2 ^ 23`. The store is
reallocated to `sizeof(pool_mgr_t)` bytes, that is `mgr_slots` pointers: the first slots are
kept, and slots past the old array (if any) are taken as `0`. -/
def _mem_resize_pool_store (mgr_slots : Nat) (g : store_t) : store_t × alloc_status :=
  if 4 * g.pool_store_size > 3 * g.pool_store_capacity then
    ({ pool_store := g.pool_store.map
         (fun arr => arr.take mgr_slots ++ List.replicate (mgr_slots - arr.length) 0),
       pool_store_size := (g.pool_store_size * MEM_EXPAND_FACTOR) % U32,
       pool_store_capacity := (g.pool_store_capacity * MEM_EXPAND_FACTOR) % U32 },
     alloc_status.ALLOC_OK)
  else (g, alloc_status.ALLOC_OK)

/-- The manager that `mem_pool_open` builds once its four allocations succeeded: everything
zero from `calloc`, then the assignments of lines 177 to 193. -/
def new_pool_mgr (mem_p size : Nat) (policy : alloc_policy) : pool_mgr_t :=
  { pool := { mem := mem_p, policy := policy, total_size := size, alloc_size := 0,
              num_allocs := 0, num_gaps := 1 },
    node_heap := (List.replicate MEM_NODE_HEAP_INIT_CAPACITY zero_node).set 0
      { alloc_record := { size := size, mem := mem_p },
        used := 1, allocated := 0, next := none, prev := none },
    total_nodes := MEM_NODE_HEAP_INIT_CAPACITY,
    used_nodes := 0,
    gap_ix := List.replicate MEM_GAP_IX_INIT_CAPACITY zero_gap,
    gap_ix_capacity := MEM_GAP_IX_INIT_CAPACITY }

/-- The function `mem_pool_open`. The result is `none` when the write
`pool_store[pool_store_size]` falls outside the store; otherwise the new globals and the
pool (`none` for a `NULL` return). -/
def mem_pool_open (h : host_t) (g : store_t) (size : Nat) (policy : alloc_policy) :
    Option (store_t × Option pool_mgr_t) :=
  match g.pool_store with
  | none => some (g, none)
  | some _ =>
    let g1 := (_mem_resize_pool_store h.mgr_slots g).1
    if h.mgr_p = 0 then some (g1, none)
    else if h.mem_p = 0 then some (g1, none)
    else if h.heap_ok = false then some (g1, none)
    else if h.gap_ok = false then some (g1, none)
    else
      match g1.pool_store with
      | none => none
      | some arr =>
        if g1.pool_store_size < arr.length then
          some ({ g1 with pool_store := some (arr.set g1.pool_store_size h.mgr_p),
                          pool_store_size := (g1.pool_store_size + 1) % U32 },
                some (new_pool_mgr h.mem_p size policy))
        else none

/-- The function `mem_pool_close`: it writes nothing, so the globals and the pool come back
as they were. -/
def mem_pool_close (g : store_t) (pool : Option pool_mgr_t) :
    alloc_status × store_t × Option pool_mgr_t :=
  match pool with
  | none => (alloc_status.ALLOC_NOT_FREED, g, pool)
  | some my_pool_mgr =>
    if my_pool_mgr.pool.num_gaps = 1 ∧ my_pool_mgr.pool.num_allocs = 0 then
      (alloc_status.ALLOC_OK, g, pool)
    else (alloc_status.ALLOC_NOT_FREED, g, pool)

/-! ## Gap index -/

/-- The function `_mem_resize_node_heap`: it only returns `ALLOC_OK`. -/
def _mem_resize_node_heap (pool_mgr : pool_mgr_t) : pool_mgr_t × alloc_status :=
  (pool_mgr, alloc_status.ALLOC_OK)

/-- The function `_mem_resize_gap_ix`. The test `(float) num_gaps / gap_ix_capacity > 2` is
`num_gaps > 2 * gap_ix_capacity`, exact while `num_gaps < 2 ^ 24` and the capacity is below
`2 ^ 23`. When it holds the code calls `realloc` on the integer `pool_store_capacity`, which
is not a pointer obtained from the allocator: the behaviour is undefined (`none`). -/
def _mem_resize_gap_ix (pool_mgr : pool_mgr_t) : Option (pool_mgr_t × alloc_status) :=
  if pool_mgr.pool.num_gaps > MEM_GAP_IX_EXPAND_FACTOR * pool_mgr.gap_ix_capacity then none
  else some (pool_mgr, alloc_status.ALLOC_OK)

/-- The function `_mem_sort_gap_ix`: it only returns `ALLOC_FAIL`. -/
def _mem_sort_gap_ix (pool_mgr : pool_mgr_t) : pool_mgr_t × alloc_status :=
  (pool_mgr, alloc_status.ALLOC_FAIL)

/-- The function `_mem_add_to_gap_ix`: the address of the last entry is computed but nothing
is stored there; `num_gaps` is incremented and the status of the sort is returned. -/
def _mem_add_to_gap_ix (pool_mgr : pool_mgr_t) (_size : Nat) (_node : Option Nat) :
    Option (pool_mgr_t × alloc_status) :=
  match _mem_resize_gap_ix pool_mgr with
  | none => none
  | some (m1, _) =>
    some (_mem_sort_gap_ix
      { m1 with pool := { m1.pool with num_gaps := (m1.pool.num_gaps + 1) % U32 } })

/-- The search loop of `_mem_remove_from_gap_ix`: `k` iterations are left, `i` is the loop
variable. `some none` is "not found" (`location = -42`). -/
def gap_find (gap_ix : List gap_t) (node : Option Nat) : Nat → Nat → Option (Option Nat)
  | 0, _ => some none
  | k + 1, i =>
    match gap_ix[i]? with
    | none => none
    | some g => if node = g.node then some (some i) else gap_find gap_ix node k (i + 1)

/-- The copy loop of `_mem_remove_from_gap_ix`, `gap_ix[i] = gap_ix[i+1]`: `k` iterations
are left, `i` is the loop variable. -/
def gap_shift : List gap_t → Nat → Nat → Option (List gap_t)
  | gap_ix, 0, _ => some gap_ix
  | gap_ix, k + 1, i =>
    match gap_ix[i + 1]? with
    | none => none
    | some g => if i < gap_ix.length then gap_shift (gap_ix.set i g) k (i + 1) else none

/-- The function `_mem_remove_from_gap_ix`. -/
def _mem_remove_from_gap_ix (pool_mgr : pool_mgr_t) (_size : Nat) (node : Option Nat) :
    Option (pool_mgr_t × alloc_status) :=
  match gap_find pool_mgr.gap_ix node pool_mgr.gap_ix_capacity 0 with
  | none => none
  | some none => some (pool_mgr, alloc_status.ALLOC_FAIL)
  | some (some location) =>
    match gap_shift pool_mgr.gap_ix (pool_mgr.gap_ix_capacity - location) location with
    | none => none
    | some ix1 =>
      let num_gaps := (pool_mgr.pool.num_gaps + U32 - 1) % U32
      if num_gaps < ix1.length then
        some ({ pool_mgr with pool := { pool_mgr.pool with num_gaps := num_gaps },
                              gap_ix := ix1.set num_gaps zero_gap },
              alloc_status.ALLOC_OK)
      else none

/-! ## Allocation -/

/-- The `FIRST_FIT` loop of `mem_new_alloc` over the slots of the node heap: `k` iterations
are left, `i` is the loop variable. `some none` is "no node found". -/
def first_fit_scan (node_heap : List node_t) (size : Nat) : Nat → Nat → Option (Option Nat)
  | 0, _ => some none
  | k + 1, i =>
    match node_heap[i]? with
    | none => none
    | some nd =>
      if nd.alloc_record.size ≥ size ∧ nd.used = 1 ∧ nd.allocated = 0 then some (some i)
      else first_fit_scan node_heap size k (i + 1)

/-- The loop of `mem_new_alloc` that looks for an unused slot of the node heap. -/
def find_unused (node_heap : List node_t) : Nat → Nat → Option (Option Nat)
  | 0, _ => some none
  | k + 1, i =>
    match node_heap[i]? with
    | none => none
    | some nd => if nd.used = 0 then some (some i) else find_unused node_heap k (i + 1)

/-- The choice of `my_node` in `mem_new_alloc`: the heap scan under `FIRST_FIT`, nothing
under `BEST_FIT` (that branch is empty). -/
def select_node (pool_mgr : pool_mgr_t) (size : Nat) : Option (Option Nat) :=
  match pool_mgr.pool.policy with
  | alloc_policy.FIRST_FIT => first_fit_scan pool_mgr.node_heap size pool_mgr.total_nodes 0
  | alloc_policy.BEST_FIT => some none

/-- Replace slot `i` of the node heap by `f` of its content. -/
def heap_upd (node_heap : List node_t) (i : Nat) (f : node_t → node_t) : List node_t :=
  match node_heap[i]? with
  | none => node_heap
  | some nd => node_heap.set i (f nd)

/-- Lines 288 to 290: `allocated = 1`, `alloc_record.mem = p`, `alloc_record.size = size`. -/
def mark_allocated (p size : Nat) (nd : node_t) : node_t :=
  { nd with allocated := 1, alloc_record := { size := size, mem := p } }

/-- Lines 310 to 313: the new node becomes a gap of size `gap_remainder` at `mem`. -/
def init_gap (gap_remainder mem : Nat) (nd : node_t) : node_t :=
  { nd with alloc_record := { size := gap_remainder, mem := mem }, used := 1, allocated := 0 }

/-- Line 317: `next = new_node`. -/
def set_next (j : Nat) (nd : node_t) : node_t := { nd with next := some j }

/-- Line 318: `prev = my_node`. -/
def set_prev (i : Nat) (nd : node_t) : node_t := { nd with prev := some i }

/-- Line 356: `allocated = 0`. -/
def clear_allocated (nd : node_t) : node_t := { nd with allocated := 0 }

/-- Line 368: `used = 0`. -/
def clear_used (nd : node_t) : node_t := { nd with used := 0 }

/-- The tail of `mem_new_alloc` (lines 278 to 333) once `my_node` is slot `i`; `p` is the
result of `calloc(1, size)`. The remainder `my_node->alloc_record.size - size` does not wrap,
the node having been chosen with `size` at most its size. -/
def alloc_at (p : Nat) (pool_mgr : pool_mgr_t) (size i : Nat) :
    Option (pool_mgr_t × Option Nat) :=
  let m1 : pool_mgr_t :=
    { pool_mgr with pool := { pool_mgr.pool with
        num_allocs := (pool_mgr.pool.num_allocs + 1) % U32,
        alloc_size := (pool_mgr.pool.alloc_size + size) % U64 } }
  match m1.node_heap[i]? with
  | none => none
  | some my_node =>
    let gap_remainder := my_node.alloc_record.size - size
    match _mem_remove_from_gap_ix m1 size (some i) with
    | none => none
    | some (m2, _) =>
      let m3 : pool_mgr_t :=
        { m2 with node_heap := heap_upd m2.node_heap i (mark_allocated p size) }
      if gap_remainder > 0 then
        match find_unused m3.node_heap m3.total_nodes 0 with
        | none => none
        | some none => some (m3, none)
        | some (some j) =>
          let h1 := heap_upd m3.node_heap j (init_gap gap_remainder (p + size))
          let h2 := heap_upd h1 i (set_next j)
          let h3 := heap_upd h2 j (set_prev i)
          let m4 : pool_mgr_t :=
            { m3 with node_heap := h3, used_nodes := (m3.used_nodes + 1) % U32 }
          match _mem_add_to_gap_ix m4 gap_remainder (some j) with
          | none => none
          | some (m5, _) => some (m5, some i)
      else some (m3, some i)

/-- The function `mem_new_alloc`; `p` is the result of its `calloc(1, size)`. The result is
the new manager and the allocation (`none` for `NULL`). -/
def mem_new_alloc (p : Nat) (pool_mgr : pool_mgr_t) (size : Nat) :
    Option (pool_mgr_t × Option Nat) :=
  if pool_mgr.pool.num_gaps = 0 then some (pool_mgr, none)
  else if (_mem_resize_node_heap pool_mgr).2 = alloc_status.ALLOC_FAIL then
    some (pool_mgr, none)
  else if pool_mgr.used_nodes > pool_mgr.total_nodes then some (pool_mgr, none)
  else
    match select_node pool_mgr size with
    | none => none
    | some none => some (pool_mgr, none)
    | some (some i) => alloc_at p pool_mgr size i

/-! ## Release -/

/-- The search loop of `mem_del_alloc`, which compares `remove_node` with the address of
every slot and does not stop at a match. -/
def heap_find (remove_node : Option Nat) : Nat → Nat → Option Nat → Option Nat
  | 0, _, find_node => find_node
  | k + 1, i, find_node =>
    heap_find remove_node k (i + 1) (if remove_node = some i then remove_node else find_node)

/-- The function `mem_del_alloc`. -/
def mem_del_alloc (pool_mgr : pool_mgr_t) (alloc : Option Nat) :
    Option (pool_mgr_t × alloc_status) :=
  match heap_find alloc pool_mgr.total_nodes 0 none with
  | none => some (pool_mgr, alloc_status.ALLOC_FAIL)
  | some j =>
    match pool_mgr.node_heap[j]? with
    | none => none
    | some remove_node =>
      let m1 : pool_mgr_t :=
        { pool_mgr with
            node_heap := heap_upd pool_mgr.node_heap j clear_allocated,
            pool := { pool_mgr.pool with
              num_allocs := (pool_mgr.pool.num_allocs + U32 - 1) % U32,
              alloc_size :=
                (pool_mgr.pool.alloc_size + (U64 - remove_node.alloc_record.size % U64)) % U64 } }
      let m2 : pool_mgr_t :=
        { m1 with node_heap := heap_upd m1.node_heap j clear_used,
                  used_nodes := (m1.used_nodes + U32 - 1) % U32 }
      match remove_node.next with
      | none => some (m2, alloc_status.ALLOC_OK)
      | some n =>
        match m1.node_heap[n]? with
        | none => none
        | some next_node =>
          if next_node.allocated = 0 then _mem_remove_from_gap_ix m1 0 (some n)
          else some (m2, alloc_status.ALLOC_OK)

/-! ## Observations on a pool -/

/-- A live free segment: `used = 1` and `allocated = 0`. -/
def live_free (nd : node_t) : Prop := nd.used = 1 ∧ nd.allocated = 0

/-- A live allocated segment: `used = 1` and `allocated = 1`. -/
def live_alloc (nd : node_t) : Prop := nd.used = 1 ∧ nd.allocated = 1

instance (nd : node_t) : Decidable (live_free nd) := by unfold live_free; infer_instance

instance (nd : node_t) : Decidable (live_alloc nd) := by unfold live_alloc; infer_instance

/-- The slots met when the chain is followed through `next` from the pointer `cur`, each
with its node; `k` bounds the number of steps. -/
def chain_walk (node_heap : List node_t) : Nat → Option Nat → List (Nat × node_t)
  | 0, _ => []
  | _ + 1, none => []
  | k + 1, some i =>
    match node_heap[i]? with
    | none => []
    | some nd => (i, nd) :: chain_walk node_heap k nd.next

/-- The live segments in chain order, from the first segment (slot `0`, the node that
`mem_pool_open` initialises). -/
def live_chain (m : pool_mgr_t) : List (Nat × node_t) :=
  (chain_walk m.node_heap m.total_nodes (some 0)).filter (fun e => e.2.used = 1)

/-- The sum of the sizes of the live segments in chain order. -/
def live_chain_size (m : pool_mgr_t) : Nat :=
  ((live_chain m).map (fun e => e.2.alloc_record.size)).sum

/-- The live segments of the node heap, each with its slot. -/
def live_nodes (m : pool_mgr_t) : List (Nat × node_t) :=
  m.node_heap.enum.filter (fun e => e.2.used = 1)

/-- The number of live free segments of the node heap. -/
def live_free_count (m : pool_mgr_t) : Nat :=
  (m.node_heap.filter (fun nd => live_free nd)).length

/-- The number of nodes of the heap whose `allocated` flag is `1`. -/
def allocated_count (node_heap : List node_t) : Nat :=
  node_heap.countP (fun nd => nd.allocated = 1)

/-- The entries that the gap index should hold: one `(size, node)` per live free segment. -/
def live_free_entries (m : pool_mgr_t) : List gap_t :=
  (m.node_heap.enum.filter (fun e => live_free e.2)).map
    (fun e => { size := e.2.alloc_record.size, node := some e.1 })

/-- The pairs of slots `(i, j)` with `node_heap[i].next = &node_heap[j]`, both live and
free. -/
def adjacent_gaps (m : pool_mgr_t) : List (Nat × Nat) :=
  m.node_heap.enum.filterMap (fun e =>
    match e.2.next with
    | none => none
    | some j =>
      match m.node_heap[j]? with
      | none => none
      | some nx => if live_free e.2 ∧ live_free nx then some (e.1, j) else none)

/-- First fit as the specification words it: follow the segment chain from the first
segment and take the first live free segment that is large enough. -/
def chain_first_fit (m : pool_mgr_t) (size : Nat) : Option Nat :=
  ((chain_walk m.node_heap m.total_nodes (some 0)).find?
    (fun e => live_free e.2 ∧ e.2.alloc_record.size ≥ size)).map Prod.fst

/-- First fit by address, the other reading of the specification: among the live free
segments that are large enough, the one whose memory starts at the lowest address. -/
def address_first_fit (m : pool_mgr_t) (size : Nat) : Option Nat :=
  ((m.node_heap.enum.filter (fun e => live_free e.2 ∧ e.2.alloc_record.size ≥ size)).foldl
    (fun (best : Option (Nat × node_t)) e =>
      match best with
      | none => some e
      | some b => if e.2.alloc_record.mem < b.2.alloc_record.mem then some e else some b)
    none).map Prod.fst

/-- The handle `alloc` is a currently allocated live segment of the pool. -/
def currently_allocated (m : pool_mgr_t) (alloc : Option Nat) : Prop :=
  ∃ i nd, alloc = some i ∧ i < m.total_nodes ∧ m.node_heap[i]? = some nd ∧ live_alloc nd

/-- The pool states that a pool opened by `mem_pool_open h g N policy` goes through under
calls of `mem_new_alloc` and `mem_del_alloc`, where `ok` says which handles the caller may
pass to `mem_del_alloc`. -/
inductive ReachableBy (ok : pool_mgr_t → Option Nat → Prop) (N : Nat) (policy : alloc_policy) :
    pool_mgr_t → Prop
  | opened (h : host_t) (g g1 : store_t) (m : pool_mgr_t) :
      mem_pool_open h g N policy = some (g1, some m) → ReachableBy ok N policy m
  | new_alloc (p size : Nat) (m m1 : pool_mgr_t) (a : Option Nat) :
      ReachableBy ok N policy m → mem_new_alloc p m size = some (m1, a) →
      ReachableBy ok N policy m1
  | del_alloc (m m1 : pool_mgr_t) (alloc : Option Nat) (st : alloc_status) :
      ReachableBy ok N policy m → ok m alloc → mem_del_alloc m alloc = some (m1, st) →
      ReachableBy ok N policy m1

/-- Reachable by any calls, whatever handle is passed to `mem_del_alloc`. -/
def Reachable (N : Nat) (policy : alloc_policy) (m : pool_mgr_t) : Prop :=
  ReachableBy (fun _ _ => True) N policy m

/-- Reachable by calls in which `mem_del_alloc` only gets currently allocated segments. -/
def ReachableValid (N : Nat) (policy : alloc_policy) (m : pool_mgr_t) : Prop :=
  ReachableBy currently_allocated N policy m

/-! ## Invariants -/

/-- The shape that a pool of size `N` keeps from `mem_pool_open` on: the two arrays have the
initial capacities, the gap index holds no node, and no node is larger than the pool. -/
structure WF (N : Nat) (policy : alloc_policy) (m : pool_mgr_t) : Prop where
  heap_len : m.node_heap.length = MEM_NODE_HEAP_INIT_CAPACITY
  total : m.total_nodes = MEM_NODE_HEAP_INIT_CAPACITY
  ix_len : m.gap_ix.length = MEM_GAP_IX_INIT_CAPACITY
  ix_cap : m.gap_ix_capacity = MEM_GAP_IX_INIT_CAPACITY
  ix_null : ∀ g ∈ m.gap_ix, g.node = none
  size_le : ∀ (i : Nat) (nd : node_t), m.node_heap[i]? = some nd → nd.alloc_record.size ≤ N
  total_size : m.pool.total_size = N
  policy_eq : m.pool.policy = policy

/-- The counter `num_allocs` agrees with the node heap: it is the number of nodes flagged
`allocated`, and every such node is live. -/
structure Counted (m : pool_mgr_t) : Prop where
  count : m.pool.num_allocs = allocated_count m.node_heap
  live : ∀ (i : Nat) (nd : node_t), m.node_heap[i]? = some nd → nd.allocated = 1 → nd.used = 1

/-! ## Concrete runs -/

/-- A host whose allocations all succeed. -/
def host0 : host_t :=
  { mgr_p := 4096, mem_p := 8192, heap_ok := true, gap_ok := true, mgr_slots := 9 }

/-- The globals after a first successful `mem_init`. -/
def store0 : store_t :=
  (mem_init 1024 { pool_store := none, pool_store_size := 0, pool_store_capacity := 0 }).1

/-- The pool returned by `mem_pool_open(N, policy)` right after `mem_init`. -/
def open_pool (N : Nat) (policy : alloc_policy) : Option pool_mgr_t :=
  (mem_pool_open host0 store0 N policy).bind Prod.snd

/-- One call on an open pool: `mem_new_alloc(pool, size)`, with the address `p` that its
`calloc` returns, or `mem_del_alloc(pool, alloc)`. -/
inductive call where
  | new_alloc (p size : Nat)
  | del_alloc (alloc : Option Nat)
  deriving DecidableEq, Repr

/-- What a call returns: a handle (`none` for `NULL`) or a status. -/
inductive answer where
  | handle (a : Option Nat)
  | status (st : alloc_status)
  deriving DecidableEq, Repr

/-- Make the calls one after the other on the pool, collecting what they return. -/
def calls (m : pool_mgr_t) : List call → Option (pool_mgr_t × List answer)
  | [] => some (m, [])
  | call.new_alloc p size :: rest =>
    match mem_new_alloc p m size with
    | none => none
    | some (m1, a) =>
      match calls m1 rest with
      | none => none
      | some (m2, as) => some (m2, answer.handle a :: as)
  | call.del_alloc alloc :: rest =>
    match mem_del_alloc m alloc with
    | none => none
    | some (m1, st) =>
      match calls m1 rest with
      | none => none
      | some (m2, as) => some (m2, answer.status st :: as)

/-- Open a pool of size `N` right after `mem_init` and make the calls on it. -/
def run (N : Nat) (policy : alloc_policy) (cs : List call) :
    Option (pool_mgr_t × List answer) :=
  match open_pool N policy with
  | none => none
  | some m => calls m cs

/-- The pool of size 8 after `mem_new_alloc(pool, 8)`: one node, live and allocated. -/
def pool_full8 : pool_mgr_t :=
  { pool := { mem := 8192, policy := alloc_policy.FIRST_FIT, total_size := 8, alloc_size := 8,
              num_allocs := 1, num_gaps := 1 },
    node_heap :=
      { alloc_record := { size := 8, mem := 16384 }, used := 1, allocated := 1,
        next := none, prev := none } :: List.replicate 39 zero_node,
    total_nodes := 40,
    used_nodes := 0,
    gap_ix := List.replicate 40 zero_gap,
    gap_ix_capacity := 40 }

/-- The pool of size 8 after `mem_new_alloc(pool, 4)`: an allocation of 4 and a gap of 4. -/
def pool_half8 : pool_mgr_t :=
  { pool := { mem := 8192, policy := alloc_policy.FIRST_FIT, total_size := 8, alloc_size := 4,
              num_allocs := 1, num_gaps := 2 },
    node_heap :=
      [ { alloc_record := { size := 4, mem := 16384 }, used := 1, allocated := 1,
          next := some 1, prev := none },
        { alloc_record := { size := 4, mem := 16388 }, used := 1, allocated := 0,
          next := none, prev := some 0 } ] ++ List.replicate 38 zero_node,
    total_nodes := 40,
    used_nodes := 1,
    gap_ix := List.replicate 40 zero_gap,
    gap_ix_capacity := 40 }

/-- The calls that leave gaps of sizes 10, 30 and 20 (and a last gap of 1) in a pool of
size 63: five allocations of 10, 1, 30, 1, 20, then the release of all five. -/
def calls_10_30_20 : List call :=
  [call.new_alloc 16384 10, call.new_alloc 20480 1, call.new_alloc 24576 30,
   call.new_alloc 28672 1, call.new_alloc 32768 20,
   call.del_alloc (some 1), call.del_alloc (some 0), call.del_alloc (some 3),
   call.del_alloc (some 2), call.del_alloc (some 4)]

/-- The pool of size 63 after `calls_10_30_20`. -/
def pool_10_30_20 : pool_mgr_t :=
  { pool := { mem := 8192, policy := alloc_policy.FIRST_FIT, total_size := 63, alloc_size := 0,
              num_allocs := 0, num_gaps := 6 },
    node_heap :=
      [ { alloc_record := { size := 10, mem := 16384 }, used := 1, allocated := 0,
          next := some 1, prev := none },
        { alloc_record := { size := 1, mem := 20480 }, used := 0, allocated := 0,
          next := some 2, prev := some 0 },
        { alloc_record := { size := 30, mem := 24576 }, used := 1, allocated := 0,
          next := some 3, prev := some 1 },
        { alloc_record := { size := 1, mem := 28672 }, used := 0, allocated := 0,
          next := some 4, prev := some 2 },
        { alloc_record := { size := 20, mem := 32768 }, used := 1, allocated := 0,
          next := some 5, prev := some 3 },
        { alloc_record := { size := 1, mem := 32788 }, used := 1, allocated := 0,
          next := none, prev := some 4 } ] ++ List.replicate 34 zero_node,
    total_nodes := 40,
    used_nodes := 3,
    gap_ix := List.replicate 40 zero_gap,
    gap_ix_capacity := 40 }

/-- The six orders in which three allocations can be released. -/
def release_orders : List (List Nat) :=
  [[0, 1, 2], [0, 2, 1], [1, 0, 2], [1, 2, 0], [2, 0, 1], [2, 1, 0]]

/-- Open a pool of size `N`, allocate three segments of size `N / 4`, release them in the
given order; the result is the three statuses, `num_gaps`, `num_allocs`, and the live
segments as `(slot, size, allocated)`. -/
def release_three (N : Nat) (order : List Nat) :
    Option (List answer × Nat × Nat × List (Nat × Nat × Nat)) :=
  (run N alloc_policy.FIRST_FIT
    ([call.new_alloc 16384 (N / 4), call.new_alloc 20480 (N / 4),
      call.new_alloc 24576 (N / 4)] ++ order.map (fun i => call.del_alloc (some i)))).map
    (fun r => (r.2.drop 3, r.1.pool.num_gaps, r.1.pool.num_allocs,
      (live_nodes r.1).map (fun e => (e.1, e.2.alloc_record.size, e.2.allocated))))

/-! ## Inspection -/

/-- The report record `pool_segment_t` of `mem_pool.h`. -/
structure pool_segment_t where
  size : Nat
  allocated : Nat
  deriving DecidableEq, Repr

/-- The pair that `mem_inspect_pool` writes for a node. -/
def segment_of (nd : node_t) : pool_segment_t :=
  { size := nd.alloc_record.size, allocated := nd.allocated }

/-- The loop of `mem_inspect_pool` over the first `used_nodes` slots of the node heap: `k`
iterations are left, `i` is the loop variable, `segs` is the array being filled. -/
def inspect_loop (node_heap : List node_t) :
    Nat → Nat → List pool_segment_t → Option (List pool_segment_t)
  | 0, _, segs => some segs
  | k + 1, i, segs =>
    match node_heap[i]? with
    | none => none
    | some my_node =>
      if i < segs.length then inspect_loop node_heap k (i + 1) (segs.set i (segment_of my_node))
      else none

/-- The function `mem_inspect_pool`; `segs_ok` says whether its `calloc` returned an array.
The result is `none` when the loop leaves the node heap, `some none` when the function
returns without writing its outputs, and otherwise `*segments` and `*num_segments`. The pool
is only read. -/
def mem_inspect_pool (segs_ok : Bool) (pool_mgr : pool_mgr_t) :
    Option (Option (List pool_segment_t × Nat)) :=
  if segs_ok = false then some none
  else
    match inspect_loop pool_mgr.node_heap pool_mgr.used_nodes 0
        (List.replicate pool_mgr.used_nodes { size := 0, allocated := 0 }) with
    | none => none
    | some segs => some (some (segs, pool_mgr.used_nodes))

/-! ## More concrete runs -/

/-- The hosts of `k` calls of `mem_pool_open` in a row: all allocations succeed and call
number `n` gets its manager at address `4096 * (n + 1)`. -/
def hosts (k : Nat) : List host_t :=
  (List.range k).map (fun n => { host0 with mgr_p := 4096 * (n + 1) })

/-- Calls of `mem_pool_open(8, FIRST_FIT)` one after the other, one per host, each on the
globals that the previous call left; the result is the final globals and the pools. -/
def opens (g : store_t) : List host_t → Option (store_t × List (Option pool_mgr_t))
  | [] => some (g, [])
  | h :: hs =>
    match mem_pool_open h g 8 alloc_policy.FIRST_FIT with
    | none => none
    | some (g1, pool) =>
      match opens g1 hs with
      | none => none
      | some (g2, pools) => some (g2, pool :: pools)

/-- The globals before any `mem_init`. -/
def store_null : store_t :=
  { pool_store := none, pool_store_size := 0, pool_store_capacity := 0 }

/-- A pool of size 8 as after open, but with the gap index filled as the specification
wants it: entry 0 is the free segment of slot 0. -/
def pool_indexed8 : pool_mgr_t :=
  { new_pool_mgr 8192 8 alloc_policy.FIRST_FIT with
    gap_ix := { size := 8, node := some 0 } :: List.replicate 39 zero_gap }

/-- The pool `pool_indexed8` with one more slot, holding `(99, &node_heap[7])`, behind the
40 slots of the gap index. -/
def pool_indexed8_spare : pool_mgr_t :=
  { pool_indexed8 with gap_ix := pool_indexed8.gap_ix ++ [{ size := 99, node := some 7 }] }

/-- The calls `mem_new_alloc(pool, 1)`, 39 times, call number `n` getting the address
`16384 + 4096 * n` from `calloc`. -/
def fill_calls : List call :=
  (List.range 39).map (fun n => call.new_alloc (16384 + 4096 * n) 1)

/-- One call of the process-wide lifecycle: `mem_init`, with the address that its `calloc`
returns, or `mem_free`. -/
inductive life where
  | init (store_p : Nat)
  | free
  deriving DecidableEq, Repr

/-- Make the lifecycle calls one after the other on the globals, collecting the statuses. -/
def lifecycle (g : store_t) : List life → List alloc_status
  | [] => []
  | life.init store_p :: rest => (mem_init store_p g).2 :: lifecycle (mem_init store_p g).1 rest
  | life.free :: rest => (mem_free g).2 :: lifecycle (mem_free g).1 rest

/-- The pool `pool_half8` after `mem_del_alloc` of its allocation: two free segments of
size 4, `num_gaps` still 2. -/
def pool_half8_released : pool_mgr_t :=
  { pool := { mem := 8192, policy := alloc_policy.FIRST_FIT, total_size := 8, alloc_size := 0,
              num_allocs := 0, num_gaps := 2 },
    node_heap :=
      [ { alloc_record := { size := 4, mem := 16384 }, used := 1, allocated := 0,
          next := some 1, prev := none },
        { alloc_record := { size := 4, mem := 16388 }, used := 1, allocated := 0,
          next := none, prev := some 0 } ] ++ List.replicate 38 zero_node,
    total_nodes := 40,
    used_nodes := 1,
    gap_ix := List.replicate 40 zero_gap,
    gap_ix_capacity := 40 }

/-! ## Loops and heap updates -/

theorem heap_upd_length (hp : List node_t) (i : Nat) (f : node_t → node_t) :
    (heap_upd hp i f).length = hp.length := by
  unfold heap_upd
  split <;> simp

theorem heap_upd_get (hp : List node_t) (i k : Nat) (f : node_t → node_t) :
    (heap_upd hp i f)[k]? = if k = i then hp[k]?.map f else hp[k]? := by
  unfold heap_upd
  split
  · next hn =>
    by_cases hk : k = i
    · subst hk; simp [hn]
    · simp [hk]
  · next nd hn =>
    by_cases hk : k = i
    · subst hk
      have hlt : k < hp.length := (List.getElem?_eq_some.mp hn).1
      simp [List.getElem?_set, hlt, hn]
    · have hik : i ≠ k := fun e => hk e.symm
      simp [hk, List.getElem?_set_ne hik]

/-- The slot scan of `FIRST_FIT`: what it means to return slot `i`. -/
theorem first_fit_scan_some (hp : List node_t) (size : Nat) :
    ∀ (k i0 i : Nat), first_fit_scan hp size k i0 = some (some i) →
      i0 ≤ i ∧ i < i0 + k ∧
      (∃ nd, hp[i]? = some nd ∧ live_free nd ∧ nd.alloc_record.size ≥ size) ∧
      ∀ j nd, i0 ≤ j → j < i → hp[j]? = some nd →
        ¬ (live_free nd ∧ nd.alloc_record.size ≥ size) := by
  intro k
  induction k with
  | zero => intro i0 i h; simp [first_fit_scan] at h
  | succ k ih =>
    intro i0 i h
    unfold first_fit_scan at h
    cases hn : hp[i0]? with
    | none => simp [hn] at h
    | some nd =>
      simp only [hn] at h
      by_cases hc : nd.alloc_record.size ≥ size ∧ nd.used = 1 ∧ nd.allocated = 0
      · rw [if_pos hc] at h
        have hi : i0 = i := by simpa using h
        subst hi
        refine ⟨le_refl _, by omega, ⟨nd, hn, ⟨hc.2.1, hc.2.2⟩, hc.1⟩, ?_⟩
        intro j nd1 h1 h2; omega
      · rw [if_neg hc] at h
        obtain ⟨h1, h2, h3, h4⟩ := ih (i0 + 1) i h
        refine ⟨by omega, by omega, h3, ?_⟩
        intro j nd1 hj1 hj2 hj3
        by_cases hj : j = i0
        · subst hj
          rw [hn] at hj3
          cases hj3
          intro hh
          exact hc ⟨hh.2, hh.1.1, hh.1.2⟩
        · exact h4 j nd1 (by omega) hj2 hj3

/-- The slot scan of `FIRST_FIT` finds nothing when no scanned slot fits. -/
theorem first_fit_scan_none (hp : List node_t) (size : Nat) :
    ∀ (k i0 : Nat), i0 + k ≤ hp.length →
      (∀ j nd, i0 ≤ j → hp[j]? = some nd → ¬ (live_free nd ∧ nd.alloc_record.size ≥ size)) →
      first_fit_scan hp size k i0 = some none := by
  intro k
  induction k with
  | zero => intro i0 _ _; rfl
  | succ k ih =>
    intro i0 hlen hno
    unfold first_fit_scan
    have hlt : i0 < hp.length := by omega
    rw [List.getElem?_eq_getElem hlt]
    simp only
    have hc : ¬ (hp[i0].alloc_record.size ≥ size ∧ hp[i0].used = 1 ∧ hp[i0].allocated = 0) := by
      intro hh
      exact hno i0 hp[i0] (le_refl _) (List.getElem?_eq_getElem hlt) ⟨⟨hh.2.1, hh.2.2⟩, hh.1⟩
    rw [if_neg hc]
    exact ih (i0 + 1) (by omega) (fun j nd hj => hno j nd (by omega))

/-- The scan for an unused slot stays inside the heap and returns an unused slot. -/
theorem find_unused_some (hp : List node_t) :
    ∀ (k i0 j : Nat), find_unused hp k i0 = some (some j) →
      j < i0 + k ∧ ∃ nd, hp[j]? = some nd ∧ nd.used = 0 := by
  intro k
  induction k with
  | zero => intro i0 j h; simp [find_unused] at h
  | succ k ih =>
    intro i0 j h
    unfold find_unused at h
    cases hn : hp[i0]? with
    | none => simp [hn] at h
    | some nd =>
      simp only [hn] at h
      by_cases hc : nd.used = 0
      · rw [if_pos hc] at h
        have hi : i0 = j := by simpa using h
        subst hi
        exact ⟨by omega, nd, hn, hc⟩
      · rw [if_neg hc] at h
        obtain ⟨h1, h2⟩ := ih (i0 + 1) j h
        exact ⟨by omega, h2⟩

/-- The scan for an unused slot never leaves the heap when the heap has the scanned slots. -/
theorem find_unused_defined (hp : List node_t) :
    ∀ (k i0 : Nat), i0 + k ≤ hp.length → find_unused hp k i0 ≠ none := by
  intro k
  induction k with
  | zero => intro i0 _; simp [find_unused]
  | succ k ih =>
    intro i0 hlen
    unfold find_unused
    have hlt : i0 < hp.length := by omega
    rw [List.getElem?_eq_getElem hlt]
    simp only
    split
    · simp
    · exact ih (i0 + 1) (by omega)

/-- The search of `mem_del_alloc` finds exactly the addresses of the scanned slots. -/
theorem heap_find_eq (a : Option Nat) :
    ∀ (k i0 : Nat) (acc : Option Nat),
      heap_find a k i0 acc = if ∃ j, a = some j ∧ i0 ≤ j ∧ j < i0 + k then a else acc := by
  intro k
  induction k with
  | zero =>
    intro i0 acc
    have hno : ¬ ∃ j, a = some j ∧ i0 ≤ j ∧ j < i0 + 0 := by
      rintro ⟨j, _, h1, h2⟩; omega
    rw [if_neg hno]; rfl
  | succ k ih =>
    intro i0 acc
    unfold heap_find
    rw [ih]
    by_cases h0 : a = some i0
    · subst h0
      have hyes2 : ∃ j, some i0 = some j ∧ i0 ≤ j ∧ j < i0 + (k + 1) :=
        ⟨i0, rfl, by omega, by omega⟩
      rw [if_pos hyes2]
      simp
    · simp only [h0, if_false]
      have : (∃ j, a = some j ∧ i0 + 1 ≤ j ∧ j < i0 + 1 + k) ↔
          (∃ j, a = some j ∧ i0 ≤ j ∧ j < i0 + (k + 1)) := by
        constructor
        · rintro ⟨j, h1, h2, h3⟩; exact ⟨j, h1, by omega, by omega⟩
        · rintro ⟨j, h1, h2, h3⟩
          refine ⟨j, h1, ?_, by omega⟩
          rcases Nat.eq_or_lt_of_le h2 with h | h
          · subst h; exact absurd h1 h0
          · omega
      simp only [this]

/-- In an index whose entries all have a `NULL` node, the search for a node finds nothing. -/
theorem gap_find_none (ix : List gap_t) (n : Nat) (hall : ∀ g ∈ ix, g.node = none) :
    ∀ (k i0 : Nat), i0 + k ≤ ix.length → gap_find ix (some n) k i0 = some none := by
  intro k
  induction k with
  | zero => intro i0 _; rfl
  | succ k ih =>
    intro i0 hlen
    unfold gap_find
    have hlt : i0 < ix.length := by omega
    rw [List.getElem?_eq_getElem hlt]
    simp only
    have : ix[i0].node = none := hall _ (List.getElem_mem hlt)
    rw [this]
    simp
    exact ih (i0 + 1) (by omega)

/-- With an index that holds no node, `_mem_remove_from_gap_ix` fails and changes nothing. -/
theorem remove_from_gap_ix_fail (m : pool_mgr_t) (sz n : Nat)
    (hnull : ∀ g ∈ m.gap_ix, g.node = none) (hcap : m.gap_ix_capacity ≤ m.gap_ix.length) :
    _mem_remove_from_gap_ix m sz (some n) = some (m, alloc_status.ALLOC_FAIL) := by
  unfold _mem_remove_from_gap_ix
  rw [gap_find_none m.gap_ix n hnull m.gap_ix_capacity 0 (by omega)]

/-- When `_mem_add_to_gap_ix` returns, it has only incremented `num_gaps`, and it reports
the failure of the sort. -/
theorem add_to_gap_ix_some (m : pool_mgr_t) (sz : Nat) (nd : Option Nat) (m1 : pool_mgr_t)
    (st : alloc_status) (h : _mem_add_to_gap_ix m sz nd = some (m1, st)) :
    m1 = { m with pool := { m.pool with num_gaps := (m.pool.num_gaps + 1) % U32 } } ∧
      st = alloc_status.ALLOC_FAIL ∧
      m.pool.num_gaps ≤ MEM_GAP_IX_EXPAND_FACTOR * m.gap_ix_capacity := by
  unfold _mem_add_to_gap_ix _mem_resize_gap_ix _mem_sort_gap_ix at h
  by_cases hc : m.pool.num_gaps > MEM_GAP_IX_EXPAND_FACTOR * m.gap_ix_capacity
  · simp [hc] at h
  · simp only [hc, if_false] at h
    simp only [Option.some.injEq, Prod.mk.injEq] at h
    exact ⟨h.1.symm, h.2.symm, by omega⟩

/-- The manager after a completed `alloc_at`: either only `my_node` changed, or a remainder
node was taken from an unused slot and linked behind it. -/
theorem alloc_at_shape (p : Nat) (m : pool_mgr_t) (size i : Nat) (m1 : pool_mgr_t)
    (a : Option Nat)
    (hnull : ∀ g ∈ m.gap_ix, g.node = none) (hcap : m.gap_ix_capacity ≤ m.gap_ix.length)
    (h : alloc_at p m size i = some (m1, a)) :
    ∃ nd, m.node_heap[i]? = some nd ∧
      m1.gap_ix = m.gap_ix ∧ m1.gap_ix_capacity = m.gap_ix_capacity ∧
      m1.total_nodes = m.total_nodes ∧
      m1.pool.total_size = m.pool.total_size ∧ m1.pool.policy = m.pool.policy ∧
      m1.pool.mem = m.pool.mem ∧
      m1.pool.num_allocs = (m.pool.num_allocs + 1) % U32 ∧
      m1.pool.alloc_size = (m.pool.alloc_size + size) % U64 ∧
      ((m1.node_heap = heap_upd m.node_heap i (mark_allocated p size) ∧
          m1.used_nodes = m.used_nodes ∧ m1.pool.num_gaps = m.pool.num_gaps ∧
          (a = none ∨ (a = some i ∧ nd.alloc_record.size - size = 0))) ∨
       (∃ j ndj, j < m.total_nodes ∧
          (heap_upd m.node_heap i (mark_allocated p size))[j]? = some ndj ∧ ndj.used = 0 ∧
          a = some i ∧ 0 < nd.alloc_record.size - size ∧
          m1.node_heap =
            heap_upd (heap_upd (heap_upd (heap_upd m.node_heap i (mark_allocated p size)) j
              (init_gap (nd.alloc_record.size - size) (p + size))) i (set_next j)) j
              (set_prev i) ∧
          m1.used_nodes = (m.used_nodes + 1) % U32 ∧
          m1.pool.num_gaps = (m.pool.num_gaps + 1) % U32 ∧
          m.pool.num_gaps ≤ MEM_GAP_IX_EXPAND_FACTOR * m.gap_ix_capacity)) := by
  unfold alloc_at at h
  simp only [] at h
  cases hn : m.node_heap[i]? with
  | none => simp [hn] at h
  | some nd =>
    simp only [hn] at h
    have hrm := remove_from_gap_ix_fail
      { m with pool := { m.pool with
          num_allocs := (m.pool.num_allocs + 1) % U32,
          alloc_size := (m.pool.alloc_size + size) % U64 } } size i hnull hcap
    rw [hrm] at h
    simp only [] at h
    refine ⟨nd, rfl, ?_⟩
    by_cases hr : nd.alloc_record.size - size > 0
    · rw [if_pos hr] at h
      cases hu : find_unused (heap_upd m.node_heap i (mark_allocated p size)) m.total_nodes 0 with
      | none => simp [hu] at h
      | some r =>
        cases r with
        | none =>
          simp only [hu] at h
          cases h
          simp
        | some j =>
          simp only [hu] at h
          obtain ⟨hj, ndj, hndj, hused⟩ := find_unused_some _ _ _ _ hu
          split at h
          · simp at h
          · next m5 st5 hadd =>
            obtain ⟨h5, _, hbound⟩ := add_to_gap_ix_some _ _ _ _ _ hadd
            simp only [Option.some.injEq, Prod.mk.injEq] at h
            obtain ⟨hm, ha⟩ := h
            subst hm ha h5
            refine ⟨rfl, rfl, rfl, rfl, rfl, rfl, rfl, rfl, Or.inr ?_⟩
            exact ⟨j, ndj, by omega, hndj, hused, rfl, hr, rfl, rfl, rfl, hbound⟩
    · rw [if_neg hr] at h
      cases h
      refine ⟨rfl, rfl, rfl, rfl, rfl, rfl, rfl, rfl, Or.inl ⟨rfl, rfl, rfl, Or.inr ⟨rfl, by omega⟩⟩⟩

/-- A completed `mem_new_alloc` either returned `NULL` without touching the pool, or chose a
slot and ran the tail `alloc_at` on it. -/
theorem mem_new_alloc_cases (p : Nat) (m : pool_mgr_t) (size : Nat) (m1 : pool_mgr_t)
    (a : Option Nat) (h : mem_new_alloc p m size = some (m1, a)) :
    (m1 = m ∧ a = none) ∨
      ∃ i, select_node m size = some (some i) ∧ m.pool.num_gaps ≠ 0 ∧
        m.used_nodes ≤ m.total_nodes ∧ alloc_at p m size i = some (m1, a) := by
  unfold mem_new_alloc _mem_resize_node_heap at h
  by_cases h0 : m.pool.num_gaps = 0
  · simp [h0] at h
    exact Or.inl ⟨h.1.symm, h.2.symm⟩
  · simp only [h0, if_false] at h
    by_cases h1 : m.used_nodes > m.total_nodes
    · simp [h1] at h
      exact Or.inl ⟨h.1.symm, h.2.symm⟩
    · simp only [h1, if_false] at h
      cases hs : select_node m size with
      | none => simp [hs] at h
      | some r =>
        cases r with
        | none =>
          simp [hs] at h
          exact Or.inl ⟨h.1.symm, h.2.symm⟩
        | some i =>
          simp [hs] at h
          exact Or.inr ⟨i, rfl, h0, by omega, h⟩

/-- The manager after a completed `mem_del_alloc`: untouched when the handle is not the
address of a heap slot; otherwise the slot lost its `allocated` flag and the counters went
down, and then either the call stopped with the status of the index removal (successor not
allocated) or the slot was also marked unused. -/
theorem mem_del_alloc_shape (m : pool_mgr_t) (alloc : Option Nat) (m1 : pool_mgr_t)
    (st : alloc_status)
    (hnull : ∀ g ∈ m.gap_ix, g.node = none) (hcap : m.gap_ix_capacity ≤ m.gap_ix.length)
    (h : mem_del_alloc m alloc = some (m1, st)) :
    (m1 = m ∧ st = alloc_status.ALLOC_FAIL ∧ ¬ ∃ j, alloc = some j ∧ j < m.total_nodes) ∨
      ∃ j nd, alloc = some j ∧ j < m.total_nodes ∧ m.node_heap[j]? = some nd ∧
        m1.gap_ix = m.gap_ix ∧ m1.gap_ix_capacity = m.gap_ix_capacity ∧
        m1.total_nodes = m.total_nodes ∧
        m1.pool.total_size = m.pool.total_size ∧ m1.pool.policy = m.pool.policy ∧
        m1.pool.mem = m.pool.mem ∧ m1.pool.num_gaps = m.pool.num_gaps ∧
        m1.pool.num_allocs = (m.pool.num_allocs + U32 - 1) % U32 ∧
        m1.pool.alloc_size =
          (m.pool.alloc_size + (U64 - nd.alloc_record.size % U64)) % U64 ∧
        ((m1.node_heap = heap_upd m.node_heap j clear_allocated ∧
            m1.used_nodes = m.used_nodes ∧ st = alloc_status.ALLOC_FAIL ∧
            ∃ n nx, nd.next = some n ∧
              (heap_upd m.node_heap j clear_allocated)[n]? = some nx ∧ nx.allocated = 0) ∨
         (m1.node_heap = heap_upd (heap_upd m.node_heap j clear_allocated) j clear_used ∧
            m1.used_nodes = (m.used_nodes + U32 - 1) % U32 ∧ st = alloc_status.ALLOC_OK ∧
            (nd.next = none ∨ ∃ n nx, nd.next = some n ∧
              (heap_upd m.node_heap j clear_allocated)[n]? = some nx ∧ nx.allocated ≠ 0))) := by
  unfold mem_del_alloc at h
  rw [heap_find_eq] at h
  by_cases hf : ∃ j, alloc = some j ∧ 0 ≤ j ∧ j < 0 + m.total_nodes
  · rw [if_pos hf] at h
    obtain ⟨j, hj, _, hlt⟩ := hf
    subst hj
    simp only [] at h
    right
    cases hn : m.node_heap[j]? with
    | none => simp [hn] at h
    | some nd =>
      simp only [hn] at h
      refine ⟨j, nd, rfl, by omega, hn, ?_⟩
      cases hnx : nd.next with
      | none =>
        simp only [hnx, Option.some.injEq, Prod.mk.injEq] at h
        obtain ⟨hm, hs⟩ := h
        subst hm hs
        exact ⟨rfl, rfl, rfl, rfl, rfl, rfl, rfl, rfl, rfl, Or.inr ⟨rfl, rfl, rfl, Or.inl rfl⟩⟩
      | some n =>
        simp only [hnx] at h
        cases hg : (heap_upd m.node_heap j clear_allocated)[n]? with
        | none => simp [hg] at h
        | some nx =>
          simp only [hg] at h
          by_cases ha : nx.allocated = 0
          · rw [if_pos ha] at h
            have hrm := remove_from_gap_ix_fail
              { m with
                  node_heap := heap_upd m.node_heap j clear_allocated,
                  pool := { m.pool with
                    num_allocs := (m.pool.num_allocs + U32 - 1) % U32,
                    alloc_size :=
                      (m.pool.alloc_size + (U64 - nd.alloc_record.size % U64)) % U64 } }
              0 n hnull hcap
            rw [hrm] at h
            simp only [Option.some.injEq, Prod.mk.injEq] at h
            obtain ⟨hm, hs⟩ := h
            subst hm hs
            exact ⟨rfl, rfl, rfl, rfl, rfl, rfl, rfl, rfl, rfl,
              Or.inl ⟨rfl, rfl, rfl, n, nx, rfl, hg, ha⟩⟩
          · rw [if_neg ha] at h
            simp only [Option.some.injEq, Prod.mk.injEq] at h
            obtain ⟨hm, hs⟩ := h
            subst hm hs
            exact ⟨rfl, rfl, rfl, rfl, rfl, rfl, rfl, rfl, rfl,
              Or.inr ⟨rfl, rfl, rfl, Or.inr ⟨n, nx, rfl, hg, ha⟩⟩⟩
  · rw [if_neg hf] at h
    simp only [Option.some.injEq, Prod.mk.injEq] at h
    left
    refine ⟨h.1.symm, h.2.symm, ?_⟩
    rintro ⟨j, h1, h2⟩
    exact hf ⟨j, h1, by omega, by omega⟩

/-- A property of single nodes that holds in the heap and is kept by `f` at slot `i` holds
in the updated heap. -/
theorem heap_upd_forall (P : node_t → Prop) (hp : List node_t) (i : Nat) (f : node_t → node_t)
    (hP : ∀ (k : Nat) (nd : node_t), hp[k]? = some nd → P nd)
    (hf : ∀ nd : node_t, hp[i]? = some nd → P nd → P (f nd)) :
    ∀ (k : Nat) (nd : node_t), (heap_upd hp i f)[k]? = some nd → P nd := by
  intro k nd h
  rw [heap_upd_get] at h
  by_cases hk : k = i
  · subst hk
    rw [if_pos rfl] at h
    obtain ⟨nd0, h0, h1⟩ := Option.map_eq_some'.mp h
    subst h1
    exact hf nd0 h0 (hP k nd0 h0)
  · rw [if_neg hk] at h
    exact hP k nd h

/-- A successful `mem_pool_open` returns the manager `new_pool_mgr`. -/
theorem mem_pool_open_mgr (h : host_t) (g g1 : store_t) (N : Nat) (policy : alloc_policy)
    (m : pool_mgr_t) (ho : mem_pool_open h g N policy = some (g1, some m)) :
    m = new_pool_mgr h.mem_p N policy := by
  unfold mem_pool_open at ho
  split at ho
  · simp at ho
  · simp only [] at ho
    split_ifs at ho <;> try (simp at ho)
    split at ho
    · simp at ho
    · split_ifs at ho
      simp only [Option.some.injEq, Prod.mk.injEq] at ho
      exact ho.2.symm

theorem new_pool_mgr_WF (mem_p N : Nat) (policy : alloc_policy) :
    WF N policy (new_pool_mgr mem_p N policy) := by
  refine ⟨by simp [new_pool_mgr], rfl, by simp [new_pool_mgr], rfl, ?_, ?_, rfl, rfl⟩
  · intro g hg
    simp only [new_pool_mgr] at hg
    rw [List.eq_of_mem_replicate hg]
    rfl
  · intro i nd hnd
    simp only [new_pool_mgr, List.getElem?_set, List.getElem?_replicate] at hnd
    split_ifs at hnd <;> simp at hnd <;> subst hnd <;> simp [zero_node]

theorem select_node_some (m : pool_mgr_t) (size i : Nat)
    (h : select_node m size = some (some i)) :
    m.pool.policy = alloc_policy.FIRST_FIT ∧ i < m.total_nodes ∧
      (∃ nd, m.node_heap[i]? = some nd ∧ live_free nd ∧ nd.alloc_record.size ≥ size) ∧
      ∀ j nd, j < i → m.node_heap[j]? = some nd →
        ¬ (live_free nd ∧ nd.alloc_record.size ≥ size) := by
  unfold select_node at h
  split at h
  · next hp =>
    obtain ⟨_, h2, h3, h4⟩ := first_fit_scan_some _ _ _ _ _ h
    exact ⟨hp, by omega, h3, fun j nd hj => h4 j nd (by omega) hj⟩
  · simp at h

theorem mem_new_alloc_WF (N : Nat) (policy : alloc_policy) (p : Nat) (m : pool_mgr_t)
    (size : Nat) (m1 : pool_mgr_t) (a : Option Nat) (hw : WF N policy m)
    (h : mem_new_alloc p m size = some (m1, a)) : WF N policy m1 := by
  rcases mem_new_alloc_cases p m size m1 a h with ⟨h1, _⟩ | ⟨i, hsel, _, _, hat⟩
  · rw [h1]; exact hw
  · obtain ⟨_, _, ⟨nd0, hnd0, _, hsz⟩, _⟩ := select_node_some m size i hsel
    have hcap : m.gap_ix_capacity ≤ m.gap_ix.length := by rw [hw.ix_cap, hw.ix_len]
    obtain ⟨nd, hnd, e1, e2, e3, e4, e5, _, _, _, hheap⟩ :=
      alloc_at_shape p m size i m1 a hw.ix_null hcap hat
    rw [hnd0] at hnd
    cases hnd
    have hN : nd0.alloc_record.size ≤ N := hw.size_le i nd0 hnd0
    have hmark : ∀ (k : Nat) (nd : node_t), (heap_upd m.node_heap i (mark_allocated p size))[k]? = some nd →
        nd.alloc_record.size ≤ N :=
      heap_upd_forall (fun nd => nd.alloc_record.size ≤ N) _ _ _ hw.size_le
        (fun nd _ _ => by simp only [mark_allocated]; omega)
    refine ⟨?_, by rw [e3]; exact hw.total, by rw [e1]; exact hw.ix_len,
      by rw [e2]; exact hw.ix_cap, by rw [e1]; exact hw.ix_null, ?_,
      by rw [e4]; exact hw.total_size, by rw [e5]; exact hw.policy_eq⟩
    · rcases hheap with ⟨hh, _⟩ | ⟨j, ndj, _, _, _, _, _, hh, _⟩
      · rw [hh, heap_upd_length]; exact hw.heap_len
      · rw [hh]; simp only [heap_upd_length]; exact hw.heap_len
    · rcases hheap with ⟨hh, _⟩ | ⟨j, ndj, _, _, _, _, _, hh, _⟩
      · rw [hh]; exact hmark
      · rw [hh]
        refine heap_upd_forall (fun nd => nd.alloc_record.size ≤ N) _ _ _
          (heap_upd_forall (fun nd => nd.alloc_record.size ≤ N) _ _ _
            (heap_upd_forall (fun nd => nd.alloc_record.size ≤ N) _ _ _ hmark ?_) ?_) ?_
        · intro nd _ _; simp only [init_gap]; omega
        · intro nd _ hq; exact hq
        · intro nd _ hq; exact hq

theorem mem_del_alloc_WF (N : Nat) (policy : alloc_policy) (m : pool_mgr_t)
    (alloc : Option Nat) (m1 : pool_mgr_t) (st : alloc_status) (hw : WF N policy m)
    (h : mem_del_alloc m alloc = some (m1, st)) : WF N policy m1 := by
  have hcap : m.gap_ix_capacity ≤ m.gap_ix.length := by rw [hw.ix_cap, hw.ix_len]
  rcases mem_del_alloc_shape m alloc m1 st hw.ix_null hcap h with
    ⟨h1, _⟩ | ⟨j, nd, _, _, _, e1, e2, e3, e4, e5, _, _, _, _, hheap⟩
  · rw [h1]; exact hw
  · have hclr : ∀ (k : Nat) (nd : node_t), (heap_upd m.node_heap j clear_allocated)[k]? = some nd →
        nd.alloc_record.size ≤ N :=
      heap_upd_forall (fun nd => nd.alloc_record.size ≤ N) _ _ _ hw.size_le
        (fun nd _ hq => hq)
    refine ⟨?_, by rw [e3]; exact hw.total, by rw [e1]; exact hw.ix_len,
      by rw [e2]; exact hw.ix_cap, by rw [e1]; exact hw.ix_null, ?_,
      by rw [e4]; exact hw.total_size, by rw [e5]; exact hw.policy_eq⟩
    · rcases hheap with ⟨hh, _⟩ | ⟨hh, _⟩
      · rw [hh, heap_upd_length]; exact hw.heap_len
      · rw [hh]; simp only [heap_upd_length]; exact hw.heap_len
    · rcases hheap with ⟨hh, _⟩ | ⟨hh, _⟩
      · rw [hh]; exact hclr
      · rw [hh]
        exact heap_upd_forall (fun nd => nd.alloc_record.size ≤ N) _ _ _ hclr
          (fun nd _ hq => hq)

/-- Every pool state reached from `mem_pool_open` has the shape `WF`. -/
theorem ReachableBy_WF (ok : pool_mgr_t → Option Nat → Prop) (N : Nat)
    (policy : alloc_policy) (m : pool_mgr_t) (hr : ReachableBy ok N policy m) :
    WF N policy m := by
  induction hr with
  | opened h g g1 m ho =>
    rw [mem_pool_open_mgr h g g1 N policy m ho]
    exact new_pool_mgr_WF _ _ _
  | new_alloc p size m m1 a _ hstep ih => exact mem_new_alloc_WF N policy p m size m1 a ih hstep
  | del_alloc m m1 alloc st _ _ hstep ih => exact mem_del_alloc_WF N policy m alloc m1 st ih hstep

theorem countP_set_add {α : Type} (p : α → Bool) :
    ∀ (l : List α) (i : Nat) (a : α) (h : i < l.length),
      (l.set i a).countP p + (if p l[i] then 1 else 0) =
        l.countP p + (if p a then 1 else 0) := by
  intro l
  induction l with
  | nil => intro i a h; simp at h
  | cons x l ih =>
    intro i a h
    cases i with
    | zero =>
      simp only [List.set_cons_zero, List.countP_cons, List.getElem_cons_zero]
      omega
    | succ i =>
      have h1 : i < l.length := by simpa using h
      have := ih i a h1
      simp only [List.set_cons_succ, List.countP_cons, List.getElem_cons_succ]
      omega

/-- How an update of one slot moves the number of nodes flagged `allocated`. -/
theorem allocated_count_upd (hp : List node_t) (i : Nat) (f : node_t → node_t) (nd : node_t)
    (h : hp[i]? = some nd) :
    allocated_count (heap_upd hp i f) + (if nd.allocated = 1 then 1 else 0) =
      allocated_count hp + (if (f nd).allocated = 1 then 1 else 0) := by
  obtain ⟨hlt, hget⟩ := List.getElem?_eq_some.mp h
  unfold heap_upd allocated_count
  rw [h]
  simp only
  have := countP_set_add (fun nd : node_t => decide (nd.allocated = 1)) hp i (f nd) hlt
  simp only [decide_eq_true_eq] at this
  rw [hget] at this
  exact this

/-- An update that keeps the `allocated` flag keeps the number of flagged nodes. -/
theorem allocated_count_upd_same (hp : List node_t) (i : Nat) (f : node_t → node_t)
    (hf : ∀ nd, (f nd).allocated = nd.allocated) :
    allocated_count (heap_upd hp i f) = allocated_count hp := by
  cases h : hp[i]? with
  | none => unfold heap_upd; rw [h]
  | some nd =>
    have := allocated_count_upd hp i f nd h
    rw [hf nd] at this
    omega

theorem allocated_count_le (hp : List node_t) : allocated_count hp ≤ hp.length := by
  unfold allocated_count
  exact List.countP_le_length _

theorem new_pool_mgr_Counted (mem_p N : Nat) (policy : alloc_policy) :
    Counted (new_pool_mgr mem_p N policy) := by
  constructor
  · simp [new_pool_mgr, allocated_count, MEM_NODE_HEAP_INIT_CAPACITY, zero_node]
  · intro i nd hnd
    simp only [new_pool_mgr, List.getElem?_set, List.getElem?_replicate] at hnd
    split_ifs at hnd <;> simp at hnd <;> subst hnd <;> simp [zero_node]

theorem mem_new_alloc_Counted (N : Nat) (policy : alloc_policy) (p : Nat) (m : pool_mgr_t)
    (size : Nat) (m1 : pool_mgr_t) (a : Option Nat) (hw : WF N policy m) (hc : Counted m)
    (h : mem_new_alloc p m size = some (m1, a)) : Counted m1 := by
  rcases mem_new_alloc_cases p m size m1 a h with ⟨h1, _⟩ | ⟨i, hsel, _, _, hat⟩
  · rw [h1]; exact hc
  · obtain ⟨_, _, ⟨nd0, hnd0, hlf, _⟩, _⟩ := select_node_some m size i hsel
    have hcap : m.gap_ix_capacity ≤ m.gap_ix.length := by rw [hw.ix_cap, hw.ix_len]
    obtain ⟨nd, hnd, _, _, _, _, _, _, hna, _, hheap⟩ :=
      alloc_at_shape p m size i m1 a hw.ix_null hcap hat
    rw [hnd0] at hnd
    cases hnd
    have hcntA := allocated_count_upd m.node_heap i (mark_allocated p size) nd0 hnd0
    rw [hlf.2] at hcntA
    simp only [mark_allocated] at hcntA
    have hleA := allocated_count_le (heap_upd m.node_heap i (mark_allocated p size))
    rw [heap_upd_length, hw.heap_len] at hleA
    have hliveA : ∀ (k : Nat) (nd : node_t),
        (heap_upd m.node_heap i (mark_allocated p size))[k]? = some nd →
        nd.allocated = 1 → nd.used = 1 := by
      refine heap_upd_forall (fun nd => nd.allocated = 1 → nd.used = 1) _ _ _ hc.live ?_
      intro nd hk _ _
      rw [hnd0] at hk
      cases hk
      exact hlf.1
    have hnum : m1.pool.num_allocs =
        allocated_count (heap_upd m.node_heap i (mark_allocated p size)) := by
      rw [hna, hc.count]
      simp only [MEM_NODE_HEAP_INIT_CAPACITY] at hleA
      simp only [U32]
      simp at hcntA
      omega
    rcases hheap with ⟨hh, _⟩ | ⟨j, ndj, _, hj, hused, _, _, hh, _⟩
    · exact ⟨by rw [hh]; exact hnum, by rw [hh]; exact hliveA⟩
    · have hndj : ndj.allocated ≠ 1 := by
        intro h1
        have := hliveA j ndj hj h1
        omega
      have hcntB := allocated_count_upd _ j
        (init_gap (nd0.alloc_record.size - size) (p + size)) ndj hj
      simp only [init_gap, hndj, if_false] at hcntB
      constructor
      · rw [hh, allocated_count_upd_same _ _ (set_prev i) (fun nd => rfl),
          allocated_count_upd_same _ _ (set_next j) (fun nd => rfl)]
        simp at hcntB
        rw [hcntB]
        exact hnum
      · rw [hh]
        refine heap_upd_forall (fun nd => nd.allocated = 1 → nd.used = 1) _ _ _
          (heap_upd_forall (fun nd => nd.allocated = 1 → nd.used = 1) _ _ _
            (heap_upd_forall (fun nd => nd.allocated = 1 → nd.used = 1) _ _ _ hliveA ?_) ?_) ?_
        · intro nd _ _ _; rfl
        · intro nd _ hq; exact hq
        · intro nd _ hq; exact hq

theorem mem_del_alloc_Counted (N : Nat) (policy : alloc_policy) (m : pool_mgr_t)
    (alloc : Option Nat) (m1 : pool_mgr_t) (st : alloc_status) (hw : WF N policy m)
    (hc : Counted m) (hok : currently_allocated m alloc)
    (h : mem_del_alloc m alloc = some (m1, st)) : Counted m1 := by
  have hcap : m.gap_ix_capacity ≤ m.gap_ix.length := by rw [hw.ix_cap, hw.ix_len]
  obtain ⟨i0, nd0, ha0, hi0, hnd0, hla⟩ := hok
  rcases mem_del_alloc_shape m alloc m1 st hw.ix_null hcap h with
    ⟨_, _, hno⟩ | ⟨j, nd, haj, _, hnd, _, _, _, _, _, _, _, hna, _, hheap⟩
  · exact absurd ⟨i0, ha0, hi0⟩ hno
  · rw [ha0] at haj
    cases haj
    rw [hnd0] at hnd
    cases hnd
    have hcntA := allocated_count_upd m.node_heap i0 clear_allocated nd0 hnd0
    rw [hla.2] at hcntA
    simp only [clear_allocated] at hcntA
    have hle := allocated_count_le m.node_heap
    rw [hw.heap_len] at hle
    have hliveA : ∀ (k : Nat) (nd : node_t),
        (heap_upd m.node_heap i0 clear_allocated)[k]? = some nd →
        nd.allocated = 1 → nd.used = 1 := by
      refine heap_upd_forall (fun nd => nd.allocated = 1 → nd.used = 1) _ _ _ hc.live ?_
      intro nd _ _ h1
      simp [clear_allocated] at h1
    have hnum : m1.pool.num_allocs = allocated_count (heap_upd m.node_heap i0 clear_allocated) := by
      rw [hna, hc.count]
      simp only [MEM_NODE_HEAP_INIT_CAPACITY] at hle
      simp only [U32]
      simp at hcntA
      omega
    rcases hheap with ⟨hh, _⟩ | ⟨hh, _⟩
    · exact ⟨by rw [hh]; exact hnum, by rw [hh]; exact hliveA⟩
    · constructor
      · rw [hh, allocated_count_upd_same _ _ clear_used (fun nd => rfl)]
        exact hnum
      · rw [hh]
        intro k ndk hk h1
        rw [heap_upd_get] at hk
        by_cases hki : k = i0
        · subst hki
          rw [if_pos rfl, heap_upd_get, if_pos rfl, hnd0] at hk
          simp only [Option.map_some', Option.some.injEq] at hk
          subst hk
          simp [clear_used, clear_allocated] at h1
        · rw [if_neg hki] at hk
          exact hliveA k ndk hk h1

/-- Under calls that release only currently allocated segments, `num_allocs` counts the
nodes flagged `allocated`, and these are live. -/
theorem ReachableValid_Counted (N : Nat) (policy : alloc_policy) (m : pool_mgr_t)
    (hr : ReachableValid N policy m) : Counted m := by
  unfold ReachableValid at hr
  induction hr with
  | opened h g g1 m ho =>
    rw [mem_pool_open_mgr h g g1 N policy m ho]
    exact new_pool_mgr_Counted _ _ _
  | new_alloc p size m m1 a hprev hstep ih =>
    exact mem_new_alloc_Counted N policy p m size m1 a (ReachableBy_WF _ _ _ _ hprev) ih hstep
  | del_alloc m m1 alloc st hprev hok hstep ih =>
    exact mem_del_alloc_Counted N policy m alloc m1 st (ReachableBy_WF _ _ _ _ hprev) ih hok
      hstep

/-- The calls of a run are steps of `Reachable`. -/
theorem calls_Reachable (N : Nat) (policy : alloc_policy) :
    ∀ (cs : List call) (m m1 : pool_mgr_t) (as : List answer),
      Reachable N policy m → calls m cs = some (m1, as) → Reachable N policy m1 := by
  intro cs
  induction cs with
  | nil =>
    intro m m1 as hr h
    simp only [calls, Option.some.injEq, Prod.mk.injEq] at h
    rw [← h.1]; exact hr
  | cons c rest ih =>
    intro m m1 as hr h
    cases c with
    | new_alloc p size =>
      simp only [calls] at h
      split at h
      · simp at h
      · next m2 a hstep =>
        split at h
        · simp at h
        · next m3 as3 hrest =>
          simp only [Option.some.injEq, Prod.mk.injEq] at h
          rw [← h.1]
          exact ih m2 m3 as3 (ReachableBy.new_alloc p size m m2 a hr hstep) hrest
    | del_alloc alloc =>
      simp only [calls] at h
      split at h
      · simp at h
      · next m2 st hstep =>
        split at h
        · simp at h
        · next m3 as3 hrest =>
          simp only [Option.some.injEq, Prod.mk.injEq] at h
          rw [← h.1]
          exact ih m2 m3 as3 (ReachableBy.del_alloc m m2 alloc st hr trivial hstep) hrest

/-- The final pool of a run is reachable from `mem_pool_open`. -/
theorem run_Reachable (N : Nat) (policy : alloc_policy) (cs : List call) (m : pool_mgr_t)
    (as : List answer) (h : run N policy cs = some (m, as)) : Reachable N policy m := by
  unfold run at h
  split at h
  · simp at h
  · next m0 hopen =>
    refine calls_Reachable N policy cs m0 m as ?_ h
    unfold open_pool at hopen
    cases ho : mem_pool_open host0 store0 N policy with
    | none => simp [ho] at hopen
    | some r =>
      obtain ⟨g1, om⟩ := r
      simp only [ho, Option.some_bind] at hopen
      subst hopen
      exact ReachableBy.opened host0 store0 g1 m0 ho

/-- The `FIRST_FIT` scan either finds a slot or, when it finds none, no scanned slot fits. -/
theorem first_fit_scan_total (hp : List node_t) (size : Nat) :
    ∀ (k i0 : Nat), i0 + k ≤ hp.length →
      (∃ i, first_fit_scan hp size k i0 = some (some i)) ∨
      (first_fit_scan hp size k i0 = some none ∧
        ∀ j nd, i0 ≤ j → j < i0 + k → hp[j]? = some nd →
          ¬ (live_free nd ∧ nd.alloc_record.size ≥ size)) := by
  intro k
  induction k with
  | zero =>
    intro i0 _
    right
    exact ⟨rfl, fun j nd h1 h2 => by omega⟩
  | succ k ih =>
    intro i0 hlen
    have hlt : i0 < hp.length := by omega
    unfold first_fit_scan
    rw [List.getElem?_eq_getElem hlt]
    simp only
    by_cases hc : hp[i0].alloc_record.size ≥ size ∧ hp[i0].used = 1 ∧ hp[i0].allocated = 0
    · rw [if_pos hc]
      exact Or.inl ⟨i0, rfl⟩
    · rw [if_neg hc]
      rcases ih (i0 + 1) (by omega) with h | ⟨h1, h2⟩
      · exact Or.inl h
      · right
        refine ⟨h1, ?_⟩
        intro j nd hj1 hj2 hj3
        by_cases hj : j = i0
        · subst hj
          rw [List.getElem?_eq_getElem hlt] at hj3
          cases hj3
          intro hh
          exact hc ⟨hh.2, hh.1.1, hh.1.2⟩
        · exact h2 j nd (by omega) (by omega) hj3

/-! ## The claims -/

/-- C1 (coverage). On the pool of size 8, `mem_new_alloc(pool, 8)` followed by
`mem_del_alloc` of that allocation returns `ALLOC_OK` and leaves no live segment: the sizes
of the live segments in chain order sum to 0, not to `total_size = 8`. -/
theorem coverage_lost_after_release :
    (run 8 alloc_policy.FIRST_FIT [call.new_alloc 16384 8, call.del_alloc (some 0)]).map
        (fun r => (r.2, live_chain_size r.1, live_nodes r.1, r.1.pool.total_size)) =
      some ([answer.handle (some 0), answer.status alloc_status.ALLOC_OK], 0, [], 8) := by
  decide

/-- C2 (no adjacent gaps). On the pool of size 8, releasing the allocation of size 4 whose
chain successor is the free remainder returns `ALLOC_FAIL` and leaves slot 0 and its
successor slot 1 both live and free, each still of size 4: the successor is not absorbed. -/
theorem release_leaves_adjacent_gaps :
    (run 8 alloc_policy.FIRST_FIT [call.new_alloc 16384 4, call.del_alloc (some 0)]).map
        (fun r => (r.2, adjacent_gaps r.1,
          (live_nodes r.1).map (fun e => (e.1, e.2.alloc_record.size, e.2.allocated)))) =
      some ([answer.handle (some 0), answer.status alloc_status.ALLOC_FAIL], [(0, 1)],
        [(0, 4, 0), (1, 4, 0)]) := by
  decide

/-- C3 (counters). After `mem_new_alloc(pool, 8)` on the pool of size 8 the only segment is
allocated, so there is no live free segment, but `num_gaps` is still 1. -/
theorem num_gaps_stays_after_full_alloc :
    (run 8 alloc_policy.FIRST_FIT [call.new_alloc 16384 8]).map
        (fun r => (r.2, r.1.pool.num_gaps, live_free_count r.1, r.1.pool.num_allocs,
          r.1.pool.alloc_size)) =
      some ([answer.handle (some 0)], 1, 0, 1, 8) := by
  decide

/-- C4 (index bijection). Right after `mem_pool_open(N, policy)` the first `num_gaps = 1`
slots of the gap index hold the zero entry (size 0, `NULL` node), while the one live free
segment is slot 0 with size `N`: the index has no entry for it. -/
theorem gap_ix_empty_after_open (N : Nat) (policy : alloc_policy) :
    (open_pool N policy).map
        (fun m => (m.pool.num_gaps, m.gap_ix.take m.pool.num_gaps, live_free_entries m)) =
      some (1, [{ size := 0, node := none }], [{ size := N, node := some 0 }]) := by
  rfl

/-- C5 (round trip). On the pool of size 8 under `FIRST_FIT`, allocating 8 and releasing it
returns a handle and `ALLOC_OK`, but the pool is not as after open: no node is live and
`used_nodes` went from 0 to `2 ^ 32 - 1`. Under `BEST_FIT` the allocation returns `NULL`. -/
theorem round_trip_differs_from_open :
    (run 8 alloc_policy.FIRST_FIT [call.new_alloc 16384 8, call.del_alloc (some 0)]).map
        (fun r => (r.2, (live_nodes r.1).length, r.1.used_nodes, r.1.pool.num_gaps,
          r.1.pool.num_allocs, r.1.pool.alloc_size)) =
      some ([answer.handle (some 0), answer.status alloc_status.ALLOC_OK], 0, 4294967295,
        1, 0, 0) ∧
    (open_pool 8 alloc_policy.FIRST_FIT).map
        (fun m => ((live_nodes m).length, m.used_nodes)) = some (1, 0) ∧
    (run 8 alloc_policy.BEST_FIT [call.new_alloc 16384 8]).map (fun r => r.2) =
      some [answer.handle none] := by
  decide

/-- C6 (full release). On the pool of size 8 with three allocations of size 2, each of the
six release orders gets `ALLOC_FAIL` at least once and ends with `num_gaps = 4` and at
least two live free segments of size 2, never with one gap of size 8. -/
theorem release_three_never_one_gap :
    release_orders.map (release_three 8) =
      [some ([answer.status alloc_status.ALLOC_OK, answer.status alloc_status.ALLOC_OK,
              answer.status alloc_status.ALLOC_FAIL], 4, 0, [(2, 2, 0), (3, 2, 0)]),
       some ([answer.status alloc_status.ALLOC_OK, answer.status alloc_status.ALLOC_FAIL,
              answer.status alloc_status.ALLOC_FAIL], 4, 0, [(1, 2, 0), (2, 2, 0), (3, 2, 0)]),
       some ([answer.status alloc_status.ALLOC_OK, answer.status alloc_status.ALLOC_FAIL,
              answer.status alloc_status.ALLOC_FAIL], 4, 0, [(0, 2, 0), (2, 2, 0), (3, 2, 0)]),
       some ([answer.status alloc_status.ALLOC_OK, answer.status alloc_status.ALLOC_FAIL,
              answer.status alloc_status.ALLOC_FAIL], 4, 0, [(0, 2, 0), (2, 2, 0), (3, 2, 0)]),
       some ([answer.status alloc_status.ALLOC_FAIL, answer.status alloc_status.ALLOC_OK,
              answer.status alloc_status.ALLOC_FAIL], 4, 0, [(1, 2, 0), (2, 2, 0), (3, 2, 0)]),
       some ([answer.status alloc_status.ALLOC_FAIL, answer.status alloc_status.ALLOC_FAIL,
              answer.status alloc_status.ALLOC_FAIL], 4, 0,
              [(0, 2, 0), (1, 2, 0), (2, 2, 0), (3, 2, 0)])] := by
  rfl

/-- C7 as stated fails. On the pool of size 8 holding one allocation of 8,
`mem_del_alloc` of the address of heap slot 5, a slot that was never used, returns
`ALLOC_OK` and takes `num_allocs` from 1 to 0; slot 0 is still live and allocated, and
`mem_pool_close` returns `ALLOC_OK`. -/
theorem close_succeeds_with_live_allocation :
    (run 8 alloc_policy.FIRST_FIT [call.new_alloc 16384 8, call.del_alloc (some 5)]).map
        (fun r => (r.2, r.1.pool.num_gaps, r.1.pool.num_allocs,
          (live_nodes r.1).map (fun e => (e.1, e.2.alloc_record.size, e.2.allocated)),
          (mem_pool_close store0 (some r.1)).1)) =
      some ([answer.handle (some 0), answer.status alloc_status.ALLOC_OK], 1, 0,
        [(0, 8, 1)], alloc_status.ALLOC_OK) := by
  rfl

/-- C7 (close guard), amended. For every pool, `mem_pool_close` returns `ALLOC_OK` exactly
when `num_gaps = 1` and `num_allocs = 0`; in every other case it returns `ALLOC_NOT_FREED`
and hands back the globals and the pool unchanged. In particular this is the outcome for
every pool with a live allocated segment that was reached from `mem_pool_open` by
`mem_new_alloc` calls and `mem_del_alloc` calls on currently allocated segments. -/
theorem mem_pool_close_guard (g : store_t) (m : pool_mgr_t) :
    ((mem_pool_close g (some m)).1 = alloc_status.ALLOC_OK ↔
        (m.pool.num_gaps = 1 ∧ m.pool.num_allocs = 0)) ∧
    (¬ (m.pool.num_gaps = 1 ∧ m.pool.num_allocs = 0) →
        mem_pool_close g (some m) = (alloc_status.ALLOC_NOT_FREED, g, some m)) ∧
    (∀ (N : Nat) (policy : alloc_policy), ReachableValid N policy m →
        (∃ nd ∈ m.node_heap, live_alloc nd) →
        mem_pool_close g (some m) = (alloc_status.ALLOC_NOT_FREED, g, some m)) := by
  have hcase : ¬ (m.pool.num_gaps = 1 ∧ m.pool.num_allocs = 0) →
      mem_pool_close g (some m) = (alloc_status.ALLOC_NOT_FREED, g, some m) := by
    intro hc
    unfold mem_pool_close
    simp only [hc, if_false]
  refine ⟨?_, hcase, ?_⟩
  · constructor
    · intro h
      by_contra hc
      rw [hcase hc] at h
      cases h
    · intro hc
      unfold mem_pool_close
      simp only [hc, and_self, if_true]
  · intro N policy hr hlive
    apply hcase
    rintro ⟨_, h0⟩
    obtain ⟨nd, hmem, _, hal⟩ := hlive
    have hcnt := (ReachableValid_Counted N policy m hr).count
    have hpos : 0 < allocated_count m.node_heap := by
      unfold allocated_count
      exact List.countP_pos_iff.mpr ⟨nd, hmem, by simp [hal]⟩
    omega

/-- C7, at the pool of size 8 holding one allocation of 8: the pool is reached by a valid
call, it has a live allocation, and `mem_pool_close` returns `ALLOC_NOT_FREED` and changes
nothing. -/
theorem mem_pool_close_guard_witness :
    ReachableValid 8 alloc_policy.FIRST_FIT pool_full8 ∧
    (∃ nd ∈ pool_full8.node_heap, live_alloc nd) ∧
    mem_pool_close store0 (some pool_full8) =
      (alloc_status.ALLOC_NOT_FREED, store0, some pool_full8) :=
  have hr : ReachableValid 8 alloc_policy.FIRST_FIT pool_full8 :=
    ReachableBy.new_alloc 16384 8 (new_pool_mgr 8192 8 alloc_policy.FIRST_FIT) pool_full8
      (some 0)
      (ReachableBy.opened host0 store0
        { store0 with pool_store := some (4096 :: List.replicate 19 0), pool_store_size := 1 }
        (new_pool_mgr 8192 8 alloc_policy.FIRST_FIT) (by decide))
      (by decide)
  have hl : ∃ nd ∈ pool_full8.node_heap, live_alloc nd :=
    ⟨{ alloc_record := { size := 8, mem := 16384 }, used := 1, allocated := 1,
       next := none, prev := none }, by simp [pool_full8], by decide⟩
  ⟨hr, hl, (mem_pool_close_guard store0 pool_full8).2.2 8 alloc_policy.FIRST_FIT hr hl⟩

/-- C8 (no fit). In every pool state reached from `mem_pool_open`, when no live free segment
of the node heap has `size` bytes, and in particular when `size` exceeds `total_size`,
`mem_new_alloc` returns `NULL` and the pool is unchanged: same counters, same nodes, same
gap index. -/
theorem mem_new_alloc_no_fit (N : Nat) (policy : alloc_policy) (m : pool_mgr_t)
    (hr : Reachable N policy m) (p size : Nat) :
    ((∀ nd ∈ m.node_heap, live_free nd → nd.alloc_record.size < size) →
        mem_new_alloc p m size = some (m, none)) ∧
    (m.pool.total_size < size → mem_new_alloc p m size = some (m, none)) := by
  have hw := ReachableBy_WF _ N policy m hr
  have hmain : (∀ nd ∈ m.node_heap, live_free nd → nd.alloc_record.size < size) →
      mem_new_alloc p m size = some (m, none) := by
    intro hno
    unfold mem_new_alloc _mem_resize_node_heap
    by_cases h0 : m.pool.num_gaps = 0
    · simp [h0]
    · simp only [h0, if_false]
      by_cases h1 : m.used_nodes > m.total_nodes
      · simp [h1]
      · simp only [h1, if_false]
        have hsel : select_node m size = some none := by
          unfold select_node
          split
          · apply first_fit_scan_none
            · rw [hw.total, hw.heap_len]; omega
            · intro j nd _ hj hfit
              have := hno nd (List.mem_iff_getElem?.mpr ⟨j, hj⟩) hfit.1
              omega
          · rfl
        simp [hsel]
  refine ⟨hmain, ?_⟩
  intro hbig
  apply hmain
  intro nd hmem _
  obtain ⟨j, hj⟩ := List.mem_iff_getElem?.mp hmem
  have := hw.size_le j nd hj
  have := hw.total_size
  omega

/-- C8, at the pool of size 8 holding an allocation of 4 and a gap of 4: a request for 5
(no gap is large enough) and a request for 9 (more than the pool) both return `NULL` and
leave the pool as it was. -/
theorem mem_new_alloc_no_fit_witness :
    Reachable 8 alloc_policy.FIRST_FIT pool_half8 ∧
    (∀ nd ∈ pool_half8.node_heap, live_free nd → nd.alloc_record.size < 5) ∧
    pool_half8.pool.total_size < 9 ∧
    mem_new_alloc 20480 pool_half8 5 = some (pool_half8, none) ∧
    mem_new_alloc 20480 pool_half8 9 = some (pool_half8, none) :=
  have hr : Reachable 8 alloc_policy.FIRST_FIT pool_half8 :=
    run_Reachable 8 alloc_policy.FIRST_FIT [call.new_alloc 16384 4] pool_half8
      [answer.handle (some 0)] (by decide)
  have hno : ∀ nd ∈ pool_half8.node_heap, live_free nd → nd.alloc_record.size < 5 := by
    decide
  have hbig : pool_half8.pool.total_size < 9 := by decide
  ⟨hr, hno, hbig,
    (mem_new_alloc_no_fit 8 alloc_policy.FIRST_FIT pool_half8 hr 20480 5).1 hno,
    (mem_new_alloc_no_fit 8 alloc_policy.FIRST_FIT pool_half8 hr 20480 9).2 hbig⟩

/-- C9 as stated fails. In the pool of size 16 after `mem_new_alloc(pool, 2)`, the release
of that allocation and `mem_new_alloc(pool, 1)`, the chain from the first segment is slot 0
(allocated) then slot 2 (free, size 1, at address 16385), so first fit for a request of 1 is
slot 2 in chain order and in address order; `mem_new_alloc(pool, 1)` returns slot 1, the
free segment of size 14 at address 20482, which the scan of the heap slots meets first. -/
theorem first_fit_not_chain_order :
    (run 16 alloc_policy.FIRST_FIT
        [call.new_alloc 20480 2, call.del_alloc (some 0), call.new_alloc 16384 1]).map
        (fun r => ((mem_new_alloc 24576 r.1 1).map Prod.snd, chain_first_fit r.1 1,
          address_first_fit r.1 1,
          (live_chain r.1).map (fun e => (e.1, e.2.alloc_record.size, e.2.allocated)),
          (live_nodes r.1).map
            (fun e => (e.1, e.2.alloc_record.size, e.2.allocated, e.2.alloc_record.mem)))) =
      some (some (some 1), some 2, some 2, [(0, 1, 1), (2, 1, 0)],
        [(0, 1, 1, 16384), (1, 14, 0, 20482), (2, 1, 0, 16385)]) := by
  rfl

/-- C9 (first fit), amended. In every `FIRST_FIT` pool state reached from `mem_pool_open`,
when some live free segment of the node heap has at least `size` bytes, the node that
`mem_new_alloc` selects is the first such segment in the order of the node heap slots: it is
live, free and large enough, no slot before it is, and every segment that `mem_new_alloc`
returns for this request is that slot. -/
theorem first_fit_heap_order (N : Nat) (m : pool_mgr_t)
    (hr : Reachable N alloc_policy.FIRST_FIT m) (size : Nat)
    (hfit : ∃ nd ∈ m.node_heap, live_free nd ∧ nd.alloc_record.size ≥ size) :
    ∃ i nd, select_node m size = some (some i) ∧ m.node_heap[i]? = some nd ∧
      live_free nd ∧ nd.alloc_record.size ≥ size ∧
      (∀ (j : Nat) (nd1 : node_t), j < i → m.node_heap[j]? = some nd1 →
        ¬ (live_free nd1 ∧ nd1.alloc_record.size ≥ size)) ∧
      (∀ (p : Nat) (m1 : pool_mgr_t) (a : Nat),
        mem_new_alloc p m size = some (m1, some a) → a = i) := by
  have hw := ReachableBy_WF _ N alloc_policy.FIRST_FIT m hr
  have hlen : 0 + m.total_nodes ≤ m.node_heap.length := by
    rw [hw.total, hw.heap_len]; omega
  have hsel : ∃ i, select_node m size = some (some i) := by
    rcases first_fit_scan_total m.node_heap size m.total_nodes 0 hlen with ⟨i, hi⟩ | ⟨_, hno⟩
    · refine ⟨i, ?_⟩
      unfold select_node
      rw [hw.policy_eq]
      exact hi
    · exfalso
      obtain ⟨nd, hmem, hlf⟩ := hfit
      obtain ⟨j, hj⟩ := List.mem_iff_getElem?.mp hmem
      have hjlt : j < m.node_heap.length := (List.getElem?_eq_some.mp hj).1
      exact hno j nd (by omega) (by rw [hw.total, ← hw.heap_len]; omega) hj hlf
  obtain ⟨i, hi⟩ := hsel
  obtain ⟨_, _, ⟨nd, hnd, hlf, hsz⟩, hfirst⟩ := select_node_some m size i hi
  refine ⟨i, nd, hi, hnd, hlf, hsz, hfirst, ?_⟩
  intro p m1 a h
  rcases mem_new_alloc_cases p m size m1 (some a) h with ⟨_, h2⟩ | ⟨i1, hs1, _, _, hat⟩
  · cases h2
  · rw [hi] at hs1
    cases hs1
    have hcap : m.gap_ix_capacity ≤ m.gap_ix.length := by rw [hw.ix_cap, hw.ix_len]
    obtain ⟨_, _, _, _, _, _, _, _, _, _, hheap⟩ :=
      alloc_at_shape p m size i m1 (some a) hw.ix_null hcap hat
    rcases hheap with ⟨_, _, _, h3 | ⟨h3, _⟩⟩ | ⟨_, _, _, _, _, h3, _⟩
    · cases h3
    · cases h3; rfl
    · cases h3; rfl

/-- C9, at the pool of size 63 with gaps of sizes 10, 30 and 20 at slots 0, 2 and 4: the
pool is reached by `calls_10_30_20`, a gap is large enough for a request of 15, the theorem
applies, and `mem_new_alloc(pool, 15)` selects and returns slot 2, the gap of size 30. -/
theorem first_fit_heap_order_witness :
    Reachable 63 alloc_policy.FIRST_FIT pool_10_30_20 ∧
    (live_free_entries pool_10_30_20).map (fun e => (e.node, e.size)) =
      [(some 0, 10), (some 2, 30), (some 4, 20), (some 5, 1)] ∧
    select_node pool_10_30_20 15 = some (some 2) ∧
    (mem_new_alloc 36864 pool_10_30_20 15).map Prod.snd = some (some 2) ∧
    (∃ i nd, select_node pool_10_30_20 15 = some (some i) ∧
      pool_10_30_20.node_heap[i]? = some nd ∧
      live_free nd ∧ nd.alloc_record.size ≥ 15 ∧
      (∀ (j : Nat) (nd1 : node_t), j < i → pool_10_30_20.node_heap[j]? = some nd1 →
        ¬ (live_free nd1 ∧ nd1.alloc_record.size ≥ 15)) ∧
      (∀ (p : Nat) (m1 : pool_mgr_t) (a : Nat),
        mem_new_alloc p pool_10_30_20 15 = some (m1, some a) → a = i)) :=
  have hr : Reachable 63 alloc_policy.FIRST_FIT pool_10_30_20 :=
    run_Reachable 63 alloc_policy.FIRST_FIT calls_10_30_20 pool_10_30_20
      [answer.handle (some 0), answer.handle (some 1), answer.handle (some 2),
       answer.handle (some 3), answer.handle (some 4),
       answer.status alloc_status.ALLOC_OK, answer.status alloc_status.ALLOC_FAIL,
       answer.status alloc_status.ALLOC_OK, answer.status alloc_status.ALLOC_FAIL,
       answer.status alloc_status.ALLOC_FAIL] (by decide)
  ⟨hr, by decide, by decide, by decide,
    first_fit_heap_order 63 pool_10_30_20 hr 15
      ⟨{ alloc_record := { size := 30, mem := 24576 }, used := 1, allocated := 0,
         next := some 3, prev := some 1 }, by simp [pool_10_30_20], by decide⟩⟩

/-- C10 (best fit). On a freshly opened `BEST_FIT` pool of any size `N`, every
`mem_new_alloc(pool, size)` returns `NULL` and leaves the pool as opened, although the pool
has a live free segment of size `N`; for `N = 8` and `size = 4` the smallest sufficient gap
is slot 0 and it is not selected. -/
theorem best_fit_returns_null (N p size : Nat) :
    (open_pool N alloc_policy.BEST_FIT).bind (fun m => mem_new_alloc p m size) =
      (open_pool N alloc_policy.BEST_FIT).map (fun m => (m, none)) ∧
    (open_pool N alloc_policy.BEST_FIT).map live_free_entries =
      some [{ size := N, node := some 0 }] ∧
    (run 8 alloc_policy.BEST_FIT [call.new_alloc 16384 4]).map
        (fun r => (r.2, live_free_entries r.1)) =
      some ([answer.handle none], [{ size := 8, node := some 0 }]) := by
  exact ⟨rfl, rfl, rfl⟩

/-! ## Inspection, lifecycle and monotone gaps -/

/-- The loop of `mem_inspect_pool` overwrites the slots `i` to `i + k - 1` of the array with
the pairs of the same slots of the node heap and keeps the others. -/
theorem inspect_loop_spec (hp : List node_t) :
    ∀ (k i : Nat) (segs : List pool_segment_t), i + k ≤ hp.length → i + k ≤ segs.length →
      ∃ r, inspect_loop hp k i segs = some r ∧ r.length = segs.length ∧
        ∀ j : Nat, r[j]? = if i ≤ j ∧ j < i + k then hp[j]?.map segment_of else segs[j]? := by
  intro k
  induction k with
  | zero =>
    intro i segs _ _
    refine ⟨segs, rfl, rfl, ?_⟩
    intro j
    have : ¬ (i ≤ j ∧ j < i + 0) := by omega
    rw [if_neg this]
  | succ k ih =>
    intro i segs h1 h2
    have hlt : i < hp.length := by omega
    have hlt2 : i < segs.length := by omega
    unfold inspect_loop
    rw [List.getElem?_eq_getElem hlt]
    simp only [hlt2, if_true]
    obtain ⟨r, hr1, hr2, hr3⟩ := ih (i + 1) (segs.set i (segment_of hp[i])) (by omega)
      (by rw [List.length_set]; omega)
    refine ⟨r, hr1, by rw [hr2, List.length_set], ?_⟩
    intro j
    rw [hr3 j]
    by_cases hj : j = i
    · subst hj
      have h3 : ¬ (j + 1 ≤ j ∧ j < j + 1 + k) := by omega
      have h4 : j ≤ j ∧ j < j + (k + 1) := by omega
      rw [if_neg h3, if_pos h4, List.getElem?_set, if_pos rfl, if_pos hlt2,
        List.getElem?_eq_getElem hlt]
      rfl
    · have hne : i ≠ j := fun e => hj e.symm
      rw [List.getElem?_set_ne hne]
      by_cases hc : i ≤ j ∧ j < i + (k + 1)
      · have hc2 : i + 1 ≤ j ∧ j < i + 1 + k := by omega
        rw [if_pos hc, if_pos hc2]
      · have hc2 : ¬ (i + 1 ≤ j ∧ j < i + 1 + k) := by omega
        rw [if_neg hc, if_neg hc2]

/-- With its array obtained and `used_nodes` slots in the node heap, `mem_inspect_pool`
reports the first `used_nodes` slots in slot order. -/
theorem mem_inspect_pool_eq (m : pool_mgr_t) (hu : m.used_nodes ≤ m.node_heap.length) :
    mem_inspect_pool true m =
      some (some ((m.node_heap.take m.used_nodes).map segment_of, m.used_nodes)) := by
  unfold mem_inspect_pool
  obtain ⟨r, hr1, hr2, hr3⟩ := inspect_loop_spec m.node_heap m.used_nodes 0
    (List.replicate m.used_nodes { size := 0, allocated := 0 }) (by omega) (by simp)
  simp only [Bool.true_eq_false, if_false, hr1]
  have hr : r = (m.node_heap.take m.used_nodes).map segment_of := by
    apply List.ext_getElem?
    intro j
    rw [hr3 j, List.getElem?_map, List.getElem?_take]
    by_cases hj : j < m.used_nodes
    · have : 0 ≤ j ∧ j < 0 + m.used_nodes := by omega
      rw [if_pos this, if_pos hj]
    · have : ¬ (0 ≤ j ∧ j < 0 + m.used_nodes) := by omega
      rw [if_neg this, if_neg hj]
      simp
      omega
  rw [hr]

/-- A call of `mem_new_alloc` does not lower `num_gaps`. -/
theorem mem_new_alloc_num_gaps (N : Nat) (policy : alloc_policy) (p : Nat) (m : pool_mgr_t)
    (size : Nat) (m1 : pool_mgr_t) (a : Option Nat) (hw : WF N policy m)
    (h : mem_new_alloc p m size = some (m1, a)) : m.pool.num_gaps ≤ m1.pool.num_gaps := by
  rcases mem_new_alloc_cases p m size m1 a h with ⟨h1, _⟩ | ⟨i, _, _, _, hat⟩
  · rw [h1]
  · have hcap : m.gap_ix_capacity ≤ m.gap_ix.length := by rw [hw.ix_cap, hw.ix_len]
    obtain ⟨_, _, _, _, _, _, _, _, _, _, hheap⟩ :=
      alloc_at_shape p m size i m1 a hw.ix_null hcap hat
    rcases hheap with ⟨_, _, hg, _⟩ | ⟨_, _, _, _, _, _, _, _, _, hg, hb⟩
    · rw [hg]
    · rw [hg]
      rw [hw.ix_cap] at hb
      simp only [MEM_GAP_IX_EXPAND_FACTOR, MEM_GAP_IX_INIT_CAPACITY] at hb
      simp only [U32]
      omega

/-- A call of `mem_del_alloc` leaves `num_gaps` as it is. -/
theorem mem_del_alloc_num_gaps (N : Nat) (policy : alloc_policy) (m : pool_mgr_t)
    (alloc : Option Nat) (m1 : pool_mgr_t) (st : alloc_status) (hw : WF N policy m)
    (h : mem_del_alloc m alloc = some (m1, st)) : m1.pool.num_gaps = m.pool.num_gaps := by
  have hcap : m.gap_ix_capacity ≤ m.gap_ix.length := by rw [hw.ix_cap, hw.ix_len]
  rcases mem_del_alloc_shape m alloc m1 st hw.ix_null hcap h with
    ⟨h1, _⟩ | ⟨_, _, _, _, _, _, _, _, _, _, _, hg, _⟩
  · rw [h1]
  · exact hg

/-- No sequence of calls lowers `num_gaps`. -/
theorem calls_num_gaps (N : Nat) (policy : alloc_policy) :
    ∀ (cs : List call) (m m1 : pool_mgr_t) (as : List answer),
      Reachable N policy m → calls m cs = some (m1, as) →
      m.pool.num_gaps ≤ m1.pool.num_gaps := by
  intro cs
  induction cs with
  | nil =>
    intro m m1 as _ h
    simp only [calls, Option.some.injEq, Prod.mk.injEq] at h
    rw [← h.1]
  | cons c rest ih =>
    intro m m1 as hr h
    have hw := ReachableBy_WF _ N policy m hr
    cases c with
    | new_alloc p size =>
      simp only [calls] at h
      split at h
      · simp at h
      · next m2 a hstep =>
        split at h
        · simp at h
        · next m3 as3 hrest =>
          simp only [Option.some.injEq, Prod.mk.injEq] at h
          rw [← h.1]
          have h1 := mem_new_alloc_num_gaps N policy p m size m2 a hw hstep
          have h2 := ih m2 m3 as3 (ReachableBy.new_alloc p size m m2 a hr hstep) hrest
          omega
    | del_alloc alloc =>
      simp only [calls] at h
      split at h
      · simp at h
      · next m2 st hstep =>
        split at h
        · simp at h
        · next m3 as3 hrest =>
          simp only [Option.some.injEq, Prod.mk.injEq] at h
          rw [← h.1]
          have h1 := mem_del_alloc_num_gaps N policy m alloc m2 st hw hstep
          have h2 := ih m2 m3 as3 (ReachableBy.del_alloc m m2 alloc st hr trivial hstep) hrest
          omega

/-! ## The claims, continued -/

/-- C11 (split). In the pool of size 16 whose slot 0 is a free segment of size 2 with chain
successor slot 1 (free, size 14), `mem_new_alloc(pool, 1)` selects slot 0, makes it an
allocation of size 1 and puts the remainder of size 1 into slot 2 with `next` of slot 0 and
`prev` of slot 2 set; but slot 2 gets no `next` and slot 1 keeps `prev = slot 0`, so the
chain from slot 0 ends at slot 2 and the live free segment in slot 1 is no longer on it. -/
theorem split_drops_successor :
    (run 16 alloc_policy.FIRST_FIT [call.new_alloc 20480 2, call.del_alloc (some 0)]).map
        (fun r => (r.1.node_heap.take 3).map
          (fun nd => (nd.alloc_record.size, nd.used, nd.allocated, nd.next, nd.prev))) =
      some [(2, 1, 0, some 1, none), (14, 1, 0, none, some 0), (0, 0, 0, none, none)] ∧
    (run 16 alloc_policy.FIRST_FIT
        [call.new_alloc 20480 2, call.del_alloc (some 0), call.new_alloc 16384 1]).map
        (fun r => (r.2.drop 2,
          (r.1.node_heap.take 3).map
            (fun nd => (nd.alloc_record.size, nd.used, nd.allocated, nd.next, nd.prev)),
          (live_chain r.1).map Prod.fst, (live_nodes r.1).map Prod.fst)) =
      some ([answer.handle (some 0)],
        [(1, 1, 1, some 2, none), (14, 1, 0, none, some 0), (1, 1, 0, none, some 0)],
        [0, 2], [0, 1, 2]) := by
  exact ⟨rfl, rfl⟩

/-- C12 as stated fails. On the pool of size 8, after `mem_new_alloc(pool, 8)` and the
release of that allocation, releasing it a second time returns `ALLOC_OK` again and takes
`num_allocs` from 0 to `2 ^ 32 - 1`, `alloc_size` from 0 to `2 ^ 64 - 8` and `used_nodes`
to `2 ^ 32 - 2`; releasing the free segment of a freshly opened pool, or a slot that was
never used, also returns `ALLOC_OK` and changes the counters. -/
theorem release_accepts_any_heap_slot :
    (run 8 alloc_policy.FIRST_FIT
        [call.new_alloc 16384 8, call.del_alloc (some 0), call.del_alloc (some 0)]).map
        (fun r => (r.2, r.1.pool.num_allocs, r.1.pool.alloc_size, r.1.used_nodes)) =
      some ([answer.handle (some 0), answer.status alloc_status.ALLOC_OK,
             answer.status alloc_status.ALLOC_OK],
        4294967295, 18446744073709551608, 4294967294) ∧
    (run 8 alloc_policy.FIRST_FIT [call.del_alloc (some 0)]).map
        (fun r => (r.2, r.1.pool.num_allocs, r.1.pool.alloc_size, r.1.used_nodes,
          (live_nodes r.1).length)) =
      some ([answer.status alloc_status.ALLOC_OK], 4294967295, 18446744073709551608,
        4294967295, 0) ∧
    (run 8 alloc_policy.FIRST_FIT [call.del_alloc (some 5)]).map
        (fun r => (r.2, r.1.pool.num_allocs, r.1.used_nodes)) =
      some ([answer.status alloc_status.ALLOC_OK], 4294967295, 4294967295) := by
  exact ⟨rfl, rfl, rfl⟩

/-- C13 (inspect). For the freshly opened pool of size 8, whose one live segment is the
free segment of size 8, `mem_inspect_pool` reports `num_segments = 0` and an empty array
(or writes nothing, when `calloc(0, ..)` returns `NULL`), not the single pair
`(8, not allocated)`; for the pool of size 8 with an allocation of 4 and a gap of 4 it
reports the single pair `(4, allocated)` of the two live segments. -/
theorem inspect_misses_live_segments :
    (open_pool 8 alloc_policy.FIRST_FIT).map
        (fun m => (mem_inspect_pool true m, mem_inspect_pool false m,
          (live_nodes m).map (fun e => segment_of e.2))) =
      some (some (some ([], 0)), some none, [{ size := 8, allocated := 0 }]) ∧
    mem_inspect_pool true pool_half8 = some (some ([{ size := 4, allocated := 1 }], 1)) ∧
    (live_chain pool_half8).map (fun e => segment_of e.2) =
      [{ size := 4, allocated := 1 }, { size := 4, allocated := 0 }] := by
  exact ⟨rfl, rfl, rfl⟩

/-- C14 (open). The first 16 calls of `mem_pool_open(8, FIRST_FIT)` after `mem_init` each
return a pool with `total_size = 8`, `num_gaps = 1`, no allocation and one live segment,
free, of size 8, without neighbours. In the 17th call, with every allocation succeeding,
the store is reallocated to the 9 pointers of `sizeof(pool_mgr_t)`, `pool_store_size`
becomes 32 and the write `pool_store[32]` falls outside the store: the call has no defined
result. -/
theorem open_undefined_at_17th :
    (opens store0 (hosts 16)).map
        (fun r => (r.1.pool_store_size, r.1.pool_store_capacity,
          r.2.all (fun pool => pool = some (new_pool_mgr 8192 8 alloc_policy.FIRST_FIT)))) =
      some (16, 20, true) ∧
    (live_nodes (new_pool_mgr 8192 8 alloc_policy.FIRST_FIT)).map
        (fun e => (e.1, e.2.alloc_record.size, e.2.allocated, e.2.next, e.2.prev)) =
      [(0, 8, 0, none, none)] ∧
    (opens store0 (hosts 16)).bind
        (fun r => mem_pool_open { host0 with mgr_p := 69632 } r.1 8 alloc_policy.FIRST_FIT) =
      none ∧
    mem_pool_open host0 store_null 8 alloc_policy.FIRST_FIT = some (store_null, none) := by
  exact ⟨rfl, rfl, rfl, rfl⟩

/-- C16 (failure atomicity). Releasing the allocation of size 4 whose chain successor is
free returns `ALLOC_FAIL` after `num_allocs` went from 1 to 0, `alloc_size` from 4 to 0 and
the node from allocated to free. With all 40 slots of the node heap in use (39 allocations
of 1 in a pool of 64), `mem_new_alloc(pool, 1)` returns `NULL` after `num_allocs` and
`alloc_size` went from 39 to 40 and slot 39 from a gap of 25 to an allocation of 1. -/
theorem failed_calls_change_the_pool :
    (run 8 alloc_policy.FIRST_FIT [call.new_alloc 16384 4]).map
        (fun r => (r.1.pool.num_allocs, r.1.pool.alloc_size,
          (r.1.node_heap.take 1).map (fun nd => (nd.alloc_record.size, nd.allocated)))) =
      some (1, 4, [(4, 1)]) ∧
    (run 8 alloc_policy.FIRST_FIT [call.new_alloc 16384 4, call.del_alloc (some 0)]).map
        (fun r => (r.2.drop 1, r.1.pool.num_allocs, r.1.pool.alloc_size,
          (r.1.node_heap.take 1).map (fun nd => (nd.alloc_record.size, nd.allocated)))) =
      some ([answer.status alloc_status.ALLOC_FAIL], 0, 0, [(4, 0)]) ∧
    (run 64 alloc_policy.FIRST_FIT fill_calls).map
        (fun r => (r.1.pool.num_allocs, r.1.pool.alloc_size, r.1.pool.num_gaps,
          (live_nodes r.1).length,
          (r.1.node_heap.drop 39).map (fun nd => (nd.alloc_record.size, nd.allocated)))) =
      some (39, 39, 40, 40, [(25, 0)]) ∧
    (run 64 alloc_policy.FIRST_FIT (fill_calls ++ [call.new_alloc 4096 1])).map
        (fun r => (r.2.drop 39, r.1.pool.num_allocs, r.1.pool.alloc_size, r.1.pool.num_gaps,
          (r.1.node_heap.drop 39).map (fun nd => (nd.alloc_record.size, nd.allocated)))) =
      some ([answer.handle none], 40, 40, 40, [(1, 1)]) := by
  exact ⟨rfl, rfl, rfl, rfl⟩

/-- C17 (close unregisters). After `mem_init` and `mem_pool_open(8, FIRST_FIT)`, whose
manager is at address 4096 and is stored in slot 0 of the pool store, `mem_pool_close`
returns `ALLOC_OK` and slot 0 still holds the address 4096: the store is unchanged. -/
theorem close_leaves_store_slot :
    (mem_pool_open host0 store0 8 alloc_policy.FIRST_FIT).map
        (fun r => (r.1.pool_store.map (fun arr => arr.take 2), r.1.pool_store_size,
          (mem_pool_close r.1 r.2).1,
          (mem_pool_close r.1 r.2).2.1.pool_store.map (fun arr => arr.take 2),
          decide ((mem_pool_close r.1 r.2).2.1 = r.1))) =
      some (some [4096, 0], 1, alloc_status.ALLOC_OK, some [4096, 0], true) := by
  rfl

/-- C18 (registry growth). With 16 pools registered in a store of capacity 20,
`_mem_resize_pool_store` doubles the capacity to 40 and also doubles `pool_store_size` to
32, and reallocates the store to the 9 pointers of `sizeof(pool_mgr_t)`, so managers 10 to
16 are lost; the 17th `mem_pool_open` after `mem_init` then has no defined result, instead
of leaving `pool_store_size = 17`. -/
theorem resize_doubles_occupancy :
    (opens store0 (hosts 16)).map (fun r => r.1) =
      some { pool_store := some ((hosts 16).map (fun h => h.mgr_p) ++ List.replicate 4 0),
             pool_store_size := 16, pool_store_capacity := 20 } ∧
    (opens store0 (hosts 16)).map (fun r => (_mem_resize_pool_store 9 r.1).1) =
      some { pool_store := some ((hosts 9).map (fun h => h.mgr_p)),
             pool_store_size := 32, pool_store_capacity := 40 } ∧
    (opens store0 (hosts 17)).map (fun r => r.1.pool_store_size) = none := by
  exact ⟨rfl, rfl, rfl⟩

/-- C19 (index remove). With the free segment of slot 0 in entry 0 of a gap index of
capacity 40, `_mem_remove_from_gap_ix` finds it and its copy loop reads `gap_ix[40]`, one
past the last slot: with exactly 40 slots the call has no defined result, and with a spare
slot behind them the content of that slot, `(99, &node_heap[7])`, ends up in slot 39. A node
without entry gives `ALLOC_FAIL` and no change. -/
theorem remove_reads_past_capacity :
    _mem_remove_from_gap_ix pool_indexed8 0 (some 0) = none ∧
    (_mem_remove_from_gap_ix pool_indexed8_spare 0 (some 0)).map
        (fun r => (r.2, r.1.pool.num_gaps, r.1.gap_ix.drop 38)) =
      some (alloc_status.ALLOC_OK, 0,
        [{ size := 0, node := none }, { size := 99, node := some 7 },
         { size := 99, node := some 7 }]) ∧
    _mem_remove_from_gap_ix pool_indexed8 0 (some 3) =
      some (pool_indexed8, alloc_status.ALLOC_FAIL) := by
  exact ⟨rfl, rfl, rfl⟩

/-- C12 (invalid handles), amended. For every pool and every handle that is not the address
of a slot of the pool's node heap (`NULL`, or any address outside the `total_nodes` slots),
`mem_del_alloc` returns `ALLOC_FAIL` and leaves the pool unchanged: same counters, same
nodes, same gap index. -/
theorem mem_del_alloc_rejects_outside_heap (m : pool_mgr_t) (alloc : Option Nat)
    (h : ∀ j, alloc = some j → m.total_nodes ≤ j) :
    mem_del_alloc m alloc = some (m, alloc_status.ALLOC_FAIL) := by
  unfold mem_del_alloc
  rw [heap_find_eq]
  have hno : ¬ ∃ j, alloc = some j ∧ 0 ≤ j ∧ j < 0 + m.total_nodes := by
    rintro ⟨j, h1, _, h2⟩
    have := h j h1
    omega
  rw [if_neg hno]

/-- C12, at the pool of size 8 holding an allocation of 4 and a gap of 4: the address one
past the last heap slot is rejected with `ALLOC_FAIL` and the pool is unchanged. -/
theorem mem_del_alloc_rejects_outside_heap_witness :
    (∀ j, some 40 = some j → pool_half8.total_nodes ≤ j) ∧
    mem_del_alloc pool_half8 (some 40) = some (pool_half8, alloc_status.ALLOC_FAIL) :=
  have h : ∀ j, some 40 = some j → pool_half8.total_nodes ≤ j := by
    intro j hj
    cases hj
    decide
  ⟨h, mem_del_alloc_rejects_outside_heap pool_half8 (some 40) h⟩

/-- What `mem_inspect_pool` computes. In every pool state reached from `mem_pool_open` with
`used_nodes` at most `total_nodes`, when its array is obtained, it yields
`num_segments = used_nodes` and the `(size, allocated)` pairs of the first `used_nodes`
slots of the node heap, in slot order. -/
theorem inspect_lists_heap_prefix (N : Nat) (policy : alloc_policy) (m : pool_mgr_t)
    (hr : Reachable N policy m) (hu : m.used_nodes ≤ m.total_nodes) :
    mem_inspect_pool true m =
      some (some ((m.node_heap.take m.used_nodes).map segment_of, m.used_nodes)) := by
  have hw := ReachableBy_WF _ N policy m hr
  apply mem_inspect_pool_eq
  rw [hw.heap_len, ← hw.total]
  exact hu

/-- The report for the pool of size 63 with gaps of 10, 30 and 20: `used_nodes` is 3 and
the pairs are those of slots 0, 1 and 2, among them the unused slot 1, while the live gaps
of slots 4 and 5 are left out. -/
theorem inspect_lists_heap_prefix_witness :
    Reachable 63 alloc_policy.FIRST_FIT pool_10_30_20 ∧
    pool_10_30_20.used_nodes ≤ pool_10_30_20.total_nodes ∧
    mem_inspect_pool true pool_10_30_20 =
      some (some ((pool_10_30_20.node_heap.take pool_10_30_20.used_nodes).map segment_of,
        pool_10_30_20.used_nodes)) ∧
    (pool_10_30_20.node_heap.take pool_10_30_20.used_nodes).map segment_of =
      [{ size := 10, allocated := 0 }, { size := 1, allocated := 0 },
       { size := 30, allocated := 0 }] :=
  have hr : Reachable 63 alloc_policy.FIRST_FIT pool_10_30_20 :=
    run_Reachable 63 alloc_policy.FIRST_FIT calls_10_30_20 pool_10_30_20
      [answer.handle (some 0), answer.handle (some 1), answer.handle (some 2),
       answer.handle (some 3), answer.handle (some 4),
       answer.status alloc_status.ALLOC_OK, answer.status alloc_status.ALLOC_FAIL,
       answer.status alloc_status.ALLOC_OK, answer.status alloc_status.ALLOC_FAIL,
       answer.status alloc_status.ALLOC_FAIL] (by decide)
  have hu : pool_10_30_20.used_nodes ≤ pool_10_30_20.total_nodes := by decide
  ⟨hr, hu, inspect_lists_heap_prefix 63 alloc_policy.FIRST_FIT pool_10_30_20 hr hu, by decide⟩

/-- C15 (lifecycle). When the `calloc` of `mem_init` returns `NULL`, `mem_init` on a
registry that is not initialised returns `ALLOC_OK` and leaves `pool_store` `NULL`, so the
registry is still not initialised: a second `mem_init` returns `ALLOC_OK` again, whether
its own `calloc` succeeds or not, and `mem_free` after the first `mem_init` returns
`ALLOC_CALLED_AGAIN`. -/
theorem mem_init_ignores_calloc_failure :
    mem_init 0 store_null =
      ({ pool_store := none, pool_store_size := 0, pool_store_capacity := 20 },
        alloc_status.ALLOC_OK) ∧
    lifecycle store_null [life.init 0, life.init 0] =
      [alloc_status.ALLOC_OK, alloc_status.ALLOC_OK] ∧
    lifecycle store_null [life.init 0, life.init 1024] =
      [alloc_status.ALLOC_OK, alloc_status.ALLOC_OK] ∧
    lifecycle store_null [life.init 0, life.free] =
      [alloc_status.ALLOC_OK, alloc_status.ALLOC_CALLED_AGAIN] := by
  exact ⟨rfl, rfl, rfl, rfl⟩

/-- The lifecycle when the `calloc` of `mem_init` succeeds, the registry being initialised
iff `pool_store` is not `NULL`: `mem_init` returns `ALLOC_OK` exactly when the registry
was not initialised, and then leaves it initialised with capacity 20 and occupancy 0;
otherwise it returns `ALLOC_CALLED_AGAIN` and leaves the globals unchanged. `mem_free`
returns `ALLOC_OK` exactly when the registry was initialised, and then leaves it not
initialised; otherwise it returns `ALLOC_CALLED_AGAIN` and leaves the globals unchanged.
From a registry that is not initialised, init then shutdown succeeds three times in a row,
and init, init fails on the second call. -/
theorem init_free_lifecycle (store_p : Nat) (g : store_t) (hp : store_p ≠ 0) :
    ((mem_init store_p g).2 = alloc_status.ALLOC_OK ↔ g.pool_store = none) ∧
    (g.pool_store = none →
      mem_init store_p g =
        ({ pool_store := some (List.replicate 20 0), pool_store_size := 0,
           pool_store_capacity := 20 }, alloc_status.ALLOC_OK)) ∧
    (g.pool_store ≠ none → mem_init store_p g = (g, alloc_status.ALLOC_CALLED_AGAIN)) ∧
    ((mem_free g).2 = alloc_status.ALLOC_OK ↔ g.pool_store ≠ none) ∧
    (g.pool_store ≠ none →
      mem_free g = ({ g with pool_store := none }, alloc_status.ALLOC_OK)) ∧
    (g.pool_store = none → mem_free g = (g, alloc_status.ALLOC_CALLED_AGAIN)) ∧
    (g.pool_store = none →
      lifecycle g [life.init store_p, life.free, life.init store_p, life.free,
          life.init store_p, life.free] =
        [alloc_status.ALLOC_OK, alloc_status.ALLOC_OK, alloc_status.ALLOC_OK,
         alloc_status.ALLOC_OK, alloc_status.ALLOC_OK, alloc_status.ALLOC_OK] ∧
      lifecycle g [life.init store_p, life.init store_p] =
        [alloc_status.ALLOC_OK, alloc_status.ALLOC_CALLED_AGAIN]) := by
  cases hs : g.pool_store with
  | none =>
    simp [mem_init, mem_free, lifecycle, hs, hp, MEM_POOL_STORE_INIT_CAPACITY]
  | some arr =>
    simp [mem_init, mem_free, hs]

/-- The lifecycle from the globals before any `mem_init`, with `calloc` returning the
address 1024: the first `mem_init` succeeds, init then shutdown succeeds three times in a
row, and init, init fails on the second call. -/
theorem init_free_lifecycle_witness :
    (1024 : Nat) ≠ 0 ∧ store_null.pool_store = none ∧
    mem_init 1024 store_null = (store0, alloc_status.ALLOC_OK) ∧
    lifecycle store_null [life.init 1024, life.free, life.init 1024, life.free,
        life.init 1024, life.free] =
      [alloc_status.ALLOC_OK, alloc_status.ALLOC_OK, alloc_status.ALLOC_OK,
       alloc_status.ALLOC_OK, alloc_status.ALLOC_OK, alloc_status.ALLOC_OK] ∧
    lifecycle store_null [life.init 1024, life.init 1024] =
      [alloc_status.ALLOC_OK, alloc_status.ALLOC_CALLED_AGAIN] :=
  have hp : (1024 : Nat) ≠ 0 := by decide
  have hn : store_null.pool_store = none := rfl
  ⟨hp, hn, (init_free_lifecycle 1024 store_null hp).2.1 hn,
    ((init_free_lifecycle 1024 store_null hp).2.2.2.2.2.2 hn).1,
    ((init_free_lifecycle 1024 store_null hp).2.2.2.2.2.2 hn).2⟩

/-- C20 (monotone gaps). In every pool state reached from `mem_pool_open` by defined calls
(so the gap index was never reallocated): no gap index entry holds a node; every
`_mem_remove_from_gap_ix` for a node returns `ALLOC_FAIL` and changes nothing; no later
sequence of `mem_new_alloc` and `mem_del_alloc` calls lowers `num_gaps`; hence once
`num_gaps` is at least 2, `mem_pool_close` returns `ALLOC_NOT_FREED` after any such
sequence. -/
theorem num_gaps_never_decreases (N : Nat) (policy : alloc_policy) (m : pool_mgr_t)
    (hr : Reachable N policy m) :
    (∀ g ∈ m.gap_ix, g.node = none) ∧
    (∀ (sz n : Nat), _mem_remove_from_gap_ix m sz (some n) =
      some (m, alloc_status.ALLOC_FAIL)) ∧
    (∀ (cs : List call) (m1 : pool_mgr_t) (as : List answer),
      calls m cs = some (m1, as) →
        m.pool.num_gaps ≤ m1.pool.num_gaps ∧
        (2 ≤ m.pool.num_gaps → ∀ g : store_t,
          mem_pool_close g (some m1) = (alloc_status.ALLOC_NOT_FREED, g, some m1))) := by
  have hw := ReachableBy_WF _ N policy m hr
  refine ⟨hw.ix_null, ?_, ?_⟩
  · intro sz n
    exact remove_from_gap_ix_fail m sz n hw.ix_null (by rw [hw.ix_cap, hw.ix_len])
  · intro cs m1 as hc
    have hmono := calls_num_gaps N policy cs m m1 as hr hc
    refine ⟨hmono, ?_⟩
    intro h2 g
    unfold mem_pool_close
    have hne : ¬ (m1.pool.num_gaps = 1 ∧ m1.pool.num_allocs = 0) := by
      rintro ⟨h1, _⟩
      omega
    simp only [hne, if_false]

/-- C20, at the pool of size 8 split into an allocation of 4 and a gap of 4 (`num_gaps = 2`):
after the release of the allocation nothing is allocated, `num_gaps` is still 2, and
`mem_pool_close` returns `ALLOC_NOT_FREED`. -/
theorem num_gaps_never_decreases_witness :
    Reachable 8 alloc_policy.FIRST_FIT pool_half8 ∧
    calls pool_half8 [call.del_alloc (some 0)] =
      some (pool_half8_released, [answer.status alloc_status.ALLOC_FAIL]) ∧
    pool_half8_released.pool.num_allocs = 0 ∧
    pool_half8.pool.num_gaps ≤ pool_half8_released.pool.num_gaps ∧
    mem_pool_close store0 (some pool_half8_released) =
      (alloc_status.ALLOC_NOT_FREED, store0, some pool_half8_released) :=
  have hr : Reachable 8 alloc_policy.FIRST_FIT pool_half8 :=
    run_Reachable 8 alloc_policy.FIRST_FIT [call.new_alloc 16384 4] pool_half8
      [answer.handle (some 0)] (by decide)
  have hc : calls pool_half8 [call.del_alloc (some 0)] =
      some (pool_half8_released, [answer.status alloc_status.ALLOC_FAIL]) := by decide
  ⟨hr, hc, rfl,
    ((num_gaps_never_decreases 8 alloc_policy.FIRST_FIT pool_half8 hr).2.2 _ _ _ hc).1,
    ((num_gaps_never_decreases 8 alloc_policy.FIRST_FIT pool_half8 hr).2.2 _ _ _ hc).2
      (by decide) store0⟩

end MemPool
